import Mathlib

/-!
# URL shortener backend (`src/backend/server.js`)

A shallow embedding of the three request handlers of the Express backend
(`POST /shorturls`, `GET /shorturls/:shortcode`, `GET /:shortcode`) together
with the two in-memory maps they share (`urlStore`, `clickData`), of the
logging middleware (`src/frontend/src/logging-middleware/index.js`) and of the
frontend's shortcode check (`src/frontend/src/components/UrlShortener.jsx`).

Modelling conventions.

* JSON values of the request body are the JSON primitives (`JVal`); a field
  that is absent from the body reads as `undefined`.  Arrays and objects are not
  represented.  JSON numbers are represented by integer values (the frontend
  sends `parseInt` results); on those the arithmetic of the handlers is exact.
  A fractional number has no counterpart among the inputs, so every statement
  about the value of an expiry is one about an integer validity; what `new Date`
  does to a fractional time value is recorded apart (`expiryTimeFraction`).
* A `Date` is either a time value in milliseconds or the Invalid Date.
* An ISO-8601 string produced by `toISOString` is represented by the time value
  it denotes (`toISOString` is injective on valid time values).
* Everything the handlers read from their surroundings (clock readings, the
  uuid, the results of `Math.random()`, request headers) is an explicit input.
* Calls to `safeLog` are left out: it swallows every error of the logging
  client and touches neither map.
-/

namespace UrlShortener

/-! ## JavaScript values -/

/-- The JSON primitives a body field can hold; `undefined` is an absent field. -/
inductive JVal where
  | undefined
  | null
  | bool (b : Bool)
  | num (n : Int)
  | str (s : String)
  deriving DecidableEq, Repr

/-- Truthiness (`ToBoolean`): `undefined`, `null`, `false`, `0` and `""` are falsy. -/
def JVal.truthy : JVal → Bool
  | .undefined => false
  | .null => false
  | .bool b => b
  | .num n => n != 0
  | .str s => s != ""

/-- The test `typeof v === 'number'`. -/
def JVal.isNumber : JVal → Bool
  | .num _ => true
  | _ => false

/-- The comparison `v <= 0` for a value whose `typeof` is `'number'` (`false` on the
other values, where the handler never evaluates it). -/
def JVal.leZero : JVal → Bool
  | .num n => decide (n ≤ 0)
  | _ => false

/-- The coercion `ToNumber`, `none` standing for `NaN`.  A non-empty string is
mapped to `NaN` here: the create handler rejects every truthy non-number before
it does arithmetic, so only `null`, `false`, `""` and numbers are ever coerced. -/
def toNumber : JVal → Option Int
  | .undefined => none
  | .null => some 0
  | .bool b => some (if b then 1 else 0)
  | .num n => some n
  | .str s => if s = "" then some 0 else none

/-- The coercion `String(v)` used by template literals (decimal form for numbers,
which is the JavaScript form below `10^21`). -/
def toStr : JVal → String
  | .undefined => "undefined"
  | .null => "null"
  | .bool b => if b then "true" else "false"
  | .num n => toString n
  | .str s => s

/-! ## Dates -/

/-- A JavaScript `Date`: a time value in milliseconds since the epoch, or the
Invalid Date (time value `NaN`). -/
inductive JsDate where
  | time (ms : Int)
  | invalid
  deriving DecidableEq, Repr

/-- The largest magnitude of a time value, `8.64e15` ms. -/
def maxTime : Int := 8640000000000000

/-- The constructor `new Date(x)` for a number `x` (`TimeClip`); `none` is `NaN`. -/
def newDate : Option Int → JsDate
  | some x => if x.natAbs ≤ maxTime.natAbs then .time x else .invalid
  | none => .invalid

/-- An ISO-8601 timestamp string, represented by the time value it denotes. -/
structure IsoString where
  ms : Int
  deriving DecidableEq, Repr

/-- The method `Date.prototype.toISOString`; `none` is the `RangeError` thrown on
the Invalid Date. -/
def toISOString : JsDate → Option IsoString
  | .time ms => some ⟨ms⟩
  | .invalid => none

/-- The comparison `new Date() > d` where the clock reads `now`: both sides are
converted to their time values, and a comparison with `NaN` is `false`. -/
def nowAfter (now : Int) : JsDate → Bool
  | .time e => decide (now > e)
  | .invalid => false

/-! ## Maps -/

/-- A JavaScript `Map`, as the list of its entries in insertion order. -/
abbrev JsMap (α : Type) := List (JVal × α)

/-- The method `Map.prototype.has`. -/
def JsMap.has {α : Type} : JsMap α → JVal → Bool
  | [], _ => false
  | (k, _) :: m, key => if k = key then true else JsMap.has m key

/-- The method `Map.prototype.get`; `none` is `undefined`. -/
def JsMap.get {α : Type} : JsMap α → JVal → Option α
  | [], _ => none
  | (k, v) :: m, key => if k = key then some v else JsMap.get m key

/-- The method `Map.prototype.set`: an existing key keeps its position and takes
the new value, a new key is appended. -/
def JsMap.set {α : Type} : JsMap α → JVal → α → JsMap α
  | [], key, val => [(key, val)]
  | (k, v) :: m, key, val =>
    if k = key then (k, val) :: m else (k, v) :: JsMap.set m key val

/-- The keys of a map, in insertion order. -/
def JsMap.keys {α : Type} (m : JsMap α) : List JVal := m.map Prod.fst

/-! ## Random draws and shortcode generation -/

/-- One result of `Math.random()`: a rational `num / den` in `[0, 1)`. -/
structure Draw where
  num : Nat
  den : Nat
  lt : num < den

/-- The expression `Math.floor(r * n)` for a draw `r` (the product taken exactly). -/
def Draw.floorMul (r : Draw) (n : Nat) : Nat := r.num * n / r.den

/-- The method `String.prototype.charAt`: the one-character string at index `i`,
or the empty string when `i` is out of range. -/
def charAt (s : String) (i : Nat) : String :=
  match s.data.get? i with
  | some c => String.singleton c
  | none => ""

/-- The alphabet of `generateShortcode`. -/
def chars : String := "ABCDEFGHIJKLMNOPQRSTUVWXYZabcdefghijklmnopqrstuvwxyz0123456789"

/-- The `for` loop of `generateShortcode`: `n` more iterations, the next draw
being number `pos` of the random source. -/
def generateShortcodeLoop (random : Nat → Draw) : Nat → Nat → String → String
  | 0, _, result => result
  | n + 1, pos, result =>
    generateShortcodeLoop random n (pos + 1)
      (result ++ charAt chars ((random pos).floorMul chars.length))

/-- The function `generateShortcode`, consuming the six draws from `pos` on. -/
def generateShortcode (random : Nat → Draw) (pos : Nat) : String :=
  generateShortcodeLoop random 6 pos ""

/-- The loop `do { finalShortcode = generateShortcode() } while (urlStore.has(finalShortcode))`
with at most `fuel` iterations; `none` when the fuel runs out before a free code
is drawn. -/
def generateUntilFree {α : Type} (urlStore : JsMap α) (random : Nat → Draw) :
    Nat → Nat → Option String
  | 0, _ => none
  | fuel + 1, pos =>
    let finalShortcode := generateShortcode random pos
    if urlStore.has (.str finalShortcode) then
      generateUntilFree urlStore random fuel (pos + 6)
    else some finalShortcode

/-! ## The store -/

/-- The object `urlData` stored in `urlStore`. -/
structure UrlData where
  id : String
  originalUrl : JVal
  shortcode : JVal
  createdAt : JsDate
  expiresAt : JsDate
  validity : JVal
  deriving DecidableEq, Repr

/-- The object `clickInfo` pushed on a click list. -/
structure ClickInfo where
  timestamp : IsoString
  referrer : String
  location : Option String
  deriving DecidableEq, Repr

/-- The two module-level maps `urlStore` and `clickData`. -/
structure Store where
  urlStore : JsMap UrlData
  clickData : JsMap (List ClickInfo)
  deriving DecidableEq, Repr

/-- The state at start-up: both maps are empty. -/
def Store.empty : Store := ⟨[], []⟩

/-- The expression `clickData.get(shortcode) || []`. -/
def Store.clicks (s : Store) (shortcode : JVal) : List ClickInfo :=
  (s.clickData.get shortcode).getD []

/-! ## Replies -/

/-- The JSON bodies the handlers send. -/
inductive Payload where
  | error (message : String)
  | created (shortLink : String) (expiry : IsoString)
  | stats (shortLink : String) (expiry : IsoString) (originalUrl : JVal)
      (creationDate : IsoString) (totalClicks : Nat) (clickData : List ClickInfo)
  deriving DecidableEq, Repr

/-- What a handler does with `res`: a JSON reply, a redirect, or nothing at all
when the handler's promise rejects (an exception escaping its `catch` block). -/
inductive Reply where
  | json (status : Nat) (body : Payload)
  | redirect (status : Nat) (location : JVal)
  | rejected
  deriving DecidableEq, Repr

/-- The HTTP status of a reply, if one was sent. -/
def Reply.status : Reply → Option Nat
  | .json st _ => some st
  | .redirect st _ => some st
  | .rejected => none

/-! ## Handlers -/

/-- What the handlers take from the platform: the URL parser behind `new URL`
(whether it accepts a string) and the value of `PORT`. -/
structure Config where
  urlParses : String → Bool
  port : String

/-- The function `isValidUrl`: `new URL(string)` does not throw. -/
def isValidUrl (cfg : Config) (string : JVal) : Bool := cfg.urlParses (toStr string)

/-- The template `http://localhost:${PORT}/${shortcode}`. -/
def shortLink (cfg : Config) (shortcode : JVal) : String :=
  "http://localhost:" ++ cfg.port ++ "/" ++ toStr shortcode

/-- The body of `POST /shorturls`; a field the body lacks is `undefined`. -/
structure CreateBody where
  url : JVal
  validity : JVal
  shortcode : JVal

/-- What the create handler reads from its surroundings: the clock at
`Date.now()` (expiry computation) and at `new Date()` (`createdAt`), the result
of `uuidv4()`, and the results of `Math.random()` in the order they are drawn. -/
structure CreateEnv where
  nowExpiry : Int
  nowCreated : Int
  uuid : String
  random : Nat → Draw

/-- The destructuring default `validity = 30`: it applies to an absent field only. -/
def defaultValidity (v : JVal) : JVal := if v = .undefined then .num 30 else v

/-- The expression `new Date(Date.now() + validity * 60 * 1000)`.  The numbers of
`JVal` are integers, so the time value is an integer and `new Date` has no
fraction to drop. -/
def expiryTime (now : Int) (validity : JVal) : JsDate :=
  newDate ((toNumber validity).map (fun v => now + v * 60 * 1000))

/-- Lines 119-146 of the create handler: validation and the choice of
`finalShortcode`.  The result is the early reply, or the chosen shortcode;
`none` when the generation loop does not stop within `fuel` iterations. -/
def chooseShortcode (cfg : Config) (fuel : Nat) (s : Store) (body : CreateBody)
    (env : CreateEnv) : Option (Reply ⊕ JVal) :=
  let url := body.url
  let validity := defaultValidity body.validity
  let shortcode := body.shortcode
  if !url.truthy then
    some (.inl (.json 400 (.error "URL is required")))
  else if !isValidUrl cfg url then
    some (.inl (.json 400 (.error "Invalid URL format")))
  else if validity.truthy && (!validity.isNumber || validity.leZero) then
    some (.inl (.json 400 (.error "Validity must be a positive number")))
  else if shortcode.truthy then
    if s.urlStore.has shortcode then
      some (.inl (.json 409 (.error "Shortcode already exists")))
    else some (.inr shortcode)
  else
    (generateUntilFree s.urlStore env.random fuel 0).map (fun c => .inr (.str c))

/-- The object `urlData` the create handler builds (lines 148-157). -/
def buildUrlData (body : CreateBody) (env : CreateEnv) (finalShortcode : JVal) : UrlData :=
  let validity := defaultValidity body.validity
  let expiryTime := expiryTime env.nowExpiry validity
  { id := env.uuid
    originalUrl := body.url
    shortcode := finalShortcode
    createdAt := .time env.nowCreated
    expiresAt := expiryTime
    validity := validity }

/-- Lines 148-172 of the create handler: build the record, store it, seed the
click list, then send 201; when serialising the expiry throws, the `catch` block
sends 500. -/
def storeAndReply (cfg : Config) (s : Store) (body : CreateBody) (env : CreateEnv)
    (finalShortcode : JVal) : Reply × Store :=
  let urlData := buildUrlData body env finalShortcode
  let expiryTime := urlData.expiresAt
  let s' : Store :=
    { urlStore := s.urlStore.set finalShortcode urlData
      clickData := s.clickData.set finalShortcode [] }
  match toISOString expiryTime with
  | some expiry => (.json 201 (.created (shortLink cfg finalShortcode) expiry), s')
  | none => (.json 500 (.error "Internal server error"), s')

/-- The handler of `POST /shorturls`. -/
def createHandler (cfg : Config) (fuel : Nat) (s : Store) (body : CreateBody)
    (env : CreateEnv) : Option (Reply × Store) :=
  match chooseShortcode cfg fuel s body env with
  | none => none
  | some (.inl reply) => some (reply, s)
  | some (.inr finalShortcode) => some (storeAndReply cfg s body env finalShortcode)

/-- The handler of `GET /shorturls/:shortcode`, the clock reading `now` at
`new Date()`.  When `toISOString` throws, the `catch` block reads `shortcode`,
which is scoped to the `try` block, so the handler rejects without a reply. -/
def statsHandler (cfg : Config) (s : Store) (shortcode : String) (now : Int) :
    Reply × Store :=
  if !s.urlStore.has (.str shortcode) then
    (.json 404 (.error "Shortcode not found"), s)
  else
    match s.urlStore.get (.str shortcode) with
    | none => (.rejected, s)
    | some urlData =>
      let clicks := s.clicks (.str shortcode)
      if nowAfter now urlData.expiresAt then
        (.json 410 (.error "URL has expired"), s)
      else
        match toISOString urlData.expiresAt, toISOString urlData.createdAt with
        | some expiry, some creationDate =>
          (.json 200 (.stats (shortLink cfg (.str shortcode)) expiry urlData.originalUrl
            creationDate clicks.length clicks), s)
        | _, _ => (.rejected, s)

/-- What the redirect handler reads from its surroundings: the clock at the
expiry test and at the click timestamp, the two header lookups of `getReferrer`,
and the draw of `getLocation`. -/
structure RedirectEnv where
  nowCheck : Int
  nowClick : Int
  referer : Option String
  referrer : Option String
  random : Draw

/-- The function `getReferrer`: `req.get('Referer') || req.get('Referrer') || 'Direct'`. -/
def getReferrer (env : RedirectEnv) : String :=
  match env.referer with
  | some h => if h != "" then h else
    match env.referrer with
    | some h' => if h' != "" then h' else "Direct"
    | none => "Direct"
  | none =>
    match env.referrer with
    | some h' => if h' != "" then h' else "Direct"
    | none => "Direct"

/-- The region table of `getLocation`. -/
def locations : List String := ["US", "IN", "UK", "CA", "AU", "DE", "FR", "JP"]

/-- The function `getLocation`; `none` is `undefined`. -/
def getLocation (r : Draw) : Option String := locations.get? (r.floorMul locations.length)

/-- The object `clickInfo` the redirect handler builds: the ISO string of the
clock at that moment, the referrer and the location tag. -/
def buildClickInfo (env : RedirectEnv) : ClickInfo :=
  { timestamp := ⟨env.nowClick⟩
    referrer := getReferrer env
    location := getLocation env.random }

/-- The handler of `GET /:shortcode`. -/
def redirectHandler (s : Store) (shortcode : String) (env : RedirectEnv) : Reply × Store :=
  if !s.urlStore.has (.str shortcode) then
    (.json 404 (.error "Shortcode not found"), s)
  else
    match s.urlStore.get (.str shortcode) with
    | none => (.rejected, s)
    | some urlData =>
      if nowAfter env.nowCheck urlData.expiresAt then
        (.json 410 (.error "URL has expired"), s)
      else
        let clickInfo := buildClickInfo env
        let clicks := s.clicks (.str shortcode)
        let s' : Store :=
          { urlStore := s.urlStore
            clickData := s.clickData.set (.str shortcode) (clicks ++ [clickInfo]) }
        (.redirect 302 urlData.originalUrl, s')

/-! ## Request sequences -/

/-- A request to one of the three routes, with what its handler reads from the
surroundings. -/
inductive Request where
  | create (body : CreateBody) (env : CreateEnv)
  | stats (shortcode : String) (now : Int)
  | redirect (shortcode : String) (env : RedirectEnv)

/-- Dispatch of a request to its handler. -/
def handle (cfg : Config) (fuel : Nat) (s : Store) : Request → Option (Reply × Store)
  | .create body env => createHandler cfg fuel s body env
  | .stats shortcode now => some (statsHandler cfg s shortcode now)
  | .redirect shortcode env => some (redirectHandler s shortcode env)

/-- One handled request: the store before, the request, the reply and the store
after. -/
structure Step where
  before : Store
  fuel : Nat
  req : Request
  reply : Reply
  after : Store

/-- Requests handled one after the other, starting in store `s`; `none` when a
generation loop does not stop within its fuel. -/
def run (cfg : Config) : Store → List (Nat × Request) → Option (List Step)
  | _, [] => some []
  | s, (fuel, req) :: rest =>
    match handle cfg fuel s req with
    | none => none
    | some (reply, s') =>
      (run cfg s' rest).map (fun steps => ⟨s, fuel, req, reply, s'⟩ :: steps)

/-- The store after a sequence of steps that started in `s`. -/
def finalStore (s : Store) : List Step → Store
  | [] => s
  | st :: steps => finalStore st.after steps

/-- The stores the handlers can produce from `s` by handling requests. -/
inductive ReachableFrom (cfg : Config) (s : Store) : Store → Prop where
  | refl : ReachableFrom cfg s s
  | step {t t' : Store} {fuel : Nat} {req : Request} {reply : Reply} :
      ReachableFrom cfg s t → handle cfg fuel t req = some (reply, t') →
      ReachableFrom cfg s t'

/-- The stores the server can be in: those reachable from the empty store. -/
def Reachable (cfg : Config) (s : Store) : Prop := ReachableFrom cfg Store.empty s

/-- The value of `finalShortcode` under which a create request answered 201
stored its record; `none` for every other step. -/
def Step.created (cfg : Config) (st : Step) : Option JVal :=
  match st.req with
  | .create body env =>
    if st.reply.status = some 201 then
      match chooseShortcode cfg st.fuel st.before body env with
      | some (.inr finalShortcode) => some finalShortcode
      | _ => none
    else none
  | _ => none

/-- The click event a step appended for `shortcode`: the event built by a redirect
request for `shortcode` that was answered 302; `none` for every other step. -/
def Step.click (shortcode : String) (st : Step) : Option ClickInfo :=
  match st.req with
  | .redirect sc env =>
    if sc = shortcode ∧ st.reply.status = some 302 then some (buildClickInfo env) else none
  | _ => none

/-- The comparison `now <= d` on time values (`false` against the Invalid Date). -/
def notAfter (now : Int) : JsDate → Bool
  | .time e => decide (now ≤ e)
  | .invalid => false

/-- Every key of the registry is truthy: the empty string, `0`, `false` and `null`
are never keys. -/
def KeysTruthy (s : Store) : Prop := ∀ key, s.urlStore.has key = true → key.truthy = true

/-- A create request has a valid url: the field is truthy and parses. -/
def CreateBody.validUrl (cfg : Config) (body : CreateBody) : Prop :=
  body.url.truthy = true ∧ isValidUrl cfg body.url = true

/-- A create request has a valid validity: the field is absent or a positive number. -/
def CreateBody.validValidity (body : CreateBody) : Prop :=
  body.validity = .undefined ∨ ∃ n : Int, 0 < n ∧ body.validity = .num n

/-! ## Logging middleware (`src/frontend/src/logging-middleware/index.js`) -/

/-- The constant `VALID_STACKS`. -/
def VALID_STACKS : List String := ["backend", "frontend"]

/-- The constant `VALID_LEVELS`. -/
def VALID_LEVELS : List String := ["debug", "info", "warn", "error", "fatal"]

/-- The constant `BACKEND_PACKAGES`. -/
def BACKEND_PACKAGES : List String :=
  ["cache", "controller", "cron_job", "db", "domain", "handler", "repository", "route",
    "service"]

/-- The constant `FRONTEND_PACKAGES`. -/
def FRONTEND_PACKAGES : List String := ["api", "component", "hook", "page", "state", "style"]

/-- The constant `SHARED_PACKAGES`. -/
def SHARED_PACKAGES : List String := ["auth", "config", "middleware", "utils"]

/-- The constant `ALL_PACKAGES`, the three lists spread into one array. -/
def ALL_PACKAGES : List String := BACKEND_PACKAGES ++ FRONTEND_PACKAGES ++ SHARED_PACKAGES

/-- The method `Array.prototype.includes` on an array of strings: only a string
with the same characters is found. -/
def includes (xs : List String) : JVal → Bool
  | .str s => xs.contains s
  | _ => false

/-- The white space and line terminator code points that `String.prototype.trim`
strips. -/
def isWhiteSpace (c : Char) : Bool :=
  [0x9, 0xA, 0xB, 0xC, 0xD, 0x20, 0xA0, 0x1680, 0x2000, 0x2001, 0x2002, 0x2003, 0x2004,
    0x2005, 0x2006, 0x2007, 0x2008, 0x2009, 0x200A, 0x2028, 0x2029, 0x202F, 0x205F, 0x3000,
    0xFEFF].contains c.toNat

/-- The method `String.prototype.trim`. -/
def trim (s : String) : String :=
  String.mk ((s.data.dropWhile isWhiteSpace).reverse.dropWhile isWhiteSpace).reverse

/-- The method `Array.prototype.join` with separator `', '`. -/
def joinComma (xs : List String) : String := String.intercalate ", " xs

/-- The function `validateLogParams`: `.error message` is `throw new Error(message)`,
`.ok ()` is the normal return. -/
def validateLogParams (stack level packageName message : JVal) : Except String Unit :=
  if !includes VALID_STACKS stack then
    .error ("Invalid stack: " ++ toStr stack ++ ". Must be one of: " ++ joinComma VALID_STACKS)
  else if !includes VALID_LEVELS level then
    .error ("Invalid level: " ++ toStr level ++ ". Must be one of: " ++ joinComma VALID_LEVELS)
  else if !includes ALL_PACKAGES packageName then
    .error ("Invalid package: " ++ toStr packageName ++ ". Must be one of: " ++
      joinComma ALL_PACKAGES)
  else if stack = .str "backend" && includes FRONTEND_PACKAGES packageName then
    .error ("Package '" ++ toStr packageName ++ "' can only be used in frontend applications")
  else if stack = .str "frontend" && includes BACKEND_PACKAGES packageName then
    .error ("Package '" ++ toStr packageName ++ "' can only be used in backend applications")
  else
    match message with
    | .str m =>
      if (trim m).length = 0 then .error "Message must be a non-empty string" else .ok ()
    | _ => .error "Message must be a non-empty string"

/-- The parameters the specification accepts: the stack is `backend` or `frontend`,
the level is one of the five levels, the message is a string that is not empty
after trimming, and the package is a shared one or one of the stack's own list. -/
def LogParamsAccepted (stack level packageName message : JVal) : Prop :=
  (stack = .str "backend" ∨ stack = .str "frontend") ∧
    (∃ l ∈ ["debug", "info", "warn", "error", "fatal"], level = .str l) ∧
    (∃ m, message = .str m ∧ trim m ≠ "") ∧
    ((∃ p ∈ ["auth", "config", "middleware", "utils"], packageName = .str p) ∨
      (stack = .str "backend" ∧ ∃ p ∈ BACKEND_PACKAGES, packageName = .str p) ∨
      (stack = .str "frontend" ∧ ∃ p ∈ FRONTEND_PACKAGES, packageName = .str p))

/-- How the promise of `axios.post` settles: fulfilled with a response whose `data`
is given, or rejected with an error (network failure, error status, timeout). -/
inductive PostOutcome (δ : Type) where
  | resolved (data : δ)
  | rejected (message : String)

/-- How a call completes: it returns a value, or it throws (rejects with) an error
carrying a message. -/
inductive Completion (α : Type) where
  | returned (value : α)
  | threw (message : String)

/-- The object `logData` posted to the log service. -/
structure LogData where
  stack : String
  level : String
  pkg : String
  message : String
  deriving DecidableEq, Repr

/-- The method `String.prototype.toLowerCase` on ASCII text, which is what the
validated stack, level and package names are. -/
def toLowerCase (s : String) : String := s.map Char.toLower

/-- The object `headers` of the post: the content type, and the bearer token when
`authToken` is truthy. -/
def logHeaders (authToken : JVal) : List (String × String) :=
  if authToken.truthy then
    [("Content-Type", "application/json"), ("Authorization", "Bearer " ++ toStr authToken)]
  else [("Content-Type", "application/json")]

/-- The object `logData` that `Log` builds from its validated parameters. -/
def buildLogData (stack level packageName message : JVal) : LogData :=
  { stack := toLowerCase (toStr stack)
    level := toLowerCase (toStr level)
    pkg := toLowerCase (toStr packageName)
    message := trim (toStr message) }

/-- The `try` block of `Log`: validation, then the post, then `return response.data`;
an exception of `validateLogParams` or a rejected post leaves the block as a throw. -/
def logTry {δ : Type} (post : LogData → List (String × String) → PostOutcome δ)
    (stack level packageName message authToken : JVal) : Completion δ :=
  match validateLogParams stack level packageName message with
  | .error err => .threw err
  | .ok _ =>
    let logData := buildLogData stack level packageName message
    match post logData (logHeaders authToken) with
    | .resolved data => .returned data
    | .rejected err => .threw err

/-- The function `Log`: the `catch` block prints the error and returns `null`
(`none`); otherwise the response data is returned. -/
def Log {δ : Type} (post : LogData → List (String × String) → PostOutcome δ)
    (stack level packageName message authToken : JVal) : Completion (Option δ) :=
  match logTry post stack level packageName message authToken with
  | .returned data => .returned (some data)
  | .threw _ => .returned none

/-! ## Interleaved create handlers -/

/-- A create handler between two of its `await` points.  A handler runs without
interruption from one `await` to the next; another handler can run only while
this one is suspended at an `await safeLog(...)`. -/
inductive CreateTask where
  /-- The request has arrived and the handler has not run yet. -/
  | start (fuel : Nat) (body : CreateBody) (env : CreateEnv)
  /-- Suspended at the `await safeLog` of an early exit (lines 122, 127, 132, 139);
  the reply is sent on resumption. -/
  | awaitReply (reply : Reply)
  /-- Suspended at the `await safeLog` of line 162: the record is stored and the
  click list seeded, the 201 reply is still to be built. -/
  | awaitCreated (finalShortcode : JVal) (expiryTime : JsDate)
  /-- Suspended at the `await safeLog` of the `catch` block (line 170). -/
  | awaitError
  /-- The reply has been sent. -/
  | done (reply : Reply)

/-- One uninterrupted run of a create handler, from where it is suspended to its
next `await` (or to its end), on the shared store.  `none`: the generation loop
does not stop within the fuel. -/
def CreateTask.resume (cfg : Config) (s : Store) : CreateTask → Option (CreateTask × Store)
  | .start fuel body env =>
    match chooseShortcode cfg fuel s body env with
    | none => none
    | some (.inl reply) => some (.awaitReply reply, s)
    | some (.inr finalShortcode) =>
      let urlData := buildUrlData body env finalShortcode
      some (.awaitCreated finalShortcode urlData.expiresAt,
        { urlStore := s.urlStore.set finalShortcode urlData
          clickData := s.clickData.set finalShortcode [] })
  | .awaitReply reply => some (.done reply, s)
  | .awaitCreated finalShortcode expiryTime =>
    match toISOString expiryTime with
    | some expiry =>
      some (.done (.json 201 (.created (shortLink cfg finalShortcode) expiry)), s)
    | none => some (.awaitError, s)
  | .awaitError => some (.done (.json 500 (.error "Internal server error")), s)
  | .done reply => some (.done reply, s)

/-- A handler run alone: resumed until its reply is sent (three resumptions reach
the end from every starting point). -/
def CreateTask.runAlone (cfg : Config) (s : Store) (t : CreateTask) :
    Option (CreateTask × Store) :=
  match t.resume cfg s with
  | none => none
  | some (t1, s1) =>
    match t1.resume cfg s1 with
    | none => none
    | some (t2, s2) => t2.resume cfg s2

/-- Two create handlers in flight on one store. -/
structure Race where
  store : Store
  first : CreateTask
  second : CreateTask

/-- The event loop resumes one of the two handlers: the first one when `pick` is
`true`, the second one otherwise. -/
def Race.step (cfg : Config) (r : Race) (pick : Bool) : Option Race :=
  if pick then
    (r.first.resume cfg r.store).map (fun ts => ⟨ts.2, ts.1, r.second⟩)
  else
    (r.second.resume cfg r.store).map (fun ts => ⟨ts.2, r.first, ts.1⟩)

/-- The event loop follows a schedule: the list of its picks. -/
def Race.run (cfg : Config) : Race → List Bool → Option Race
  | r, [] => some r
  | r, pick :: schedule =>
    match r.step cfg pick with
    | none => none
    | some r' => Race.run cfg r' schedule

/-- The handler of a request for `c` has stored its record: it is suspended at line
162 with an expiry that serialises, or has sent its 201 reply. -/
def CreateTask.Won (cfg : Config) (c : JVal) (t : CreateTask) : Prop :=
  (∃ expiryTime expiry, toISOString expiryTime = some expiry ∧
      t = .awaitCreated c expiryTime) ∨
    ∃ expiry, t = .done (.json 201 (.created (shortLink cfg c) expiry))

/-- The handler found the shortcode taken: it is about to send, or has sent, 409. -/
def CreateTask.Lost (t : CreateTask) : Prop :=
  t = .awaitReply (.json 409 (.error "Shortcode already exists")) ∨
    t = .done (.json 409 (.error "Shortcode already exists"))

/-- The store with a record registered under `code` and the click list of `code`
seeded (lines 159-160). -/
def Store.withRecord (s : Store) (code : JVal) (urlData : UrlData) : Store :=
  { urlStore := s.urlStore.set code urlData
    clickData := s.clickData.set code [] }

/-- The states of a race for shortcode `c`, free in store `s`, between the handlers
`a` and `b` whose records would be `ra` and `rb`: nobody has run and the store is
`s`; or the first handler has stored `ra` and the second one has not run yet or has
lost; or the same with the roles exchanged. -/
def Race.Fair (cfg : Config) (s : Store) (c : JVal) (a b : CreateTask) (ra rb : UrlData)
    (r : Race) : Prop :=
  (r.first = a ∧ r.second = b ∧ r.store = s) ∨
    (r.first.Won cfg c ∧ (r.second = b ∨ r.second.Lost) ∧ r.store = s.withRecord c ra) ∨
    (r.second.Won cfg c ∧ (r.first = a ∨ r.first.Lost) ∧ r.store = s.withRecord c rb)

/-- The constructor `new Date(x)` for a time value `x = num / den` that need not be
an integer (`TimeClip`): out of range it gives the Invalid Date, in range it drops
the fraction (rounding toward zero). -/
def timeClip (num : Int) (den : Nat) : JsDate :=
  if num.natAbs ≤ maxTime.natAbs * den then .time (num.tdiv den) else .invalid

/-- The expression `new Date(Date.now() + validity * 60 * 1000)` for a validity that
is the fraction `num / den` of a minute, the sum taken exactly.  Body fields hold
integer numbers only (`JVal.num`), so the handlers never call this; it records what
`new Date` does to a time value with a fractional part. -/
def expiryTimeFraction (now : Int) (num : Int) (den : Nat) : JsDate :=
  timeClip (now * den + num * 60 * 1000) den

/-! ## Sample inputs -/

/-- A platform whose URL parser accepts the strings that start with `https://`. -/
def sampleConfig : Config :=
  { urlParses := fun u => "https://".data.isPrefixOf u.data
    port := "3001" }

/-- A random source whose every draw is `0`. -/
def zeroRandom : Nat → Draw := fun _ => ⟨0, 1, Nat.zero_lt_one⟩

/-- Surroundings of a create request: both clock readings at `1000` ms. -/
def sampleCreateEnv : CreateEnv :=
  { nowExpiry := 1000, nowCreated := 1000, uuid := "id-1", random := zeroRandom }

/-- The body `{url: "https://example.com", validity: 1, shortcode: "abc"}`. -/
def sampleBody : CreateBody :=
  { url := .str "https://example.com", validity := .num 1, shortcode := .str "abc" }

/-- The record the sample request stores. -/
def sampleUrlData : UrlData :=
  { id := "id-1", originalUrl := .str "https://example.com", shortcode := .str "abc"
    createdAt := .time 1000, expiresAt := .time 61000, validity := .num 1 }

/-- The store after the sample request was handled in the empty store. -/
def sampleStore : Store :=
  { urlStore := [(.str "abc", sampleUrlData)], clickData := [(.str "abc", [])] }

/-- The body `{url: "https://example.com"}`: no validity, no shortcode. -/
def plainBody : CreateBody :=
  { url := .str "https://example.com", validity := .undefined, shortcode := .undefined }

/-- Three create requests: the sample one, the sample one again, and one that
leaves the shortcode to the server. -/
def sampleRequests : List (Nat × Request) :=
  [(0, .create sampleBody sampleCreateEnv), (0, .create sampleBody sampleCreateEnv),
    (1, .create plainBody sampleCreateEnv)]

/-- The steps of handling `sampleRequests` from the empty store. -/
def sampleSteps : List Step := (run sampleConfig Store.empty sampleRequests).getD []

/-- The body `{url: "https://example.com", validity: 1, shortcode: 123}`, the
shortcode being a JSON number. -/
def numericBody : CreateBody :=
  { url := .str "https://example.com", validity := .num 1, shortcode := .num 123 }

/-- The store after `numericBody` was handled in the empty store: the key is the
number `123`. -/
def numericStore : Store :=
  { urlStore := [(.num 123,
      { id := "id-1", originalUrl := .str "https://example.com", shortcode := .num 123
        createdAt := .time 1000, expiresAt := .time 61000, validity := .num 1 })]
    clickData := [(.num 123, [])] }

/-- The body `{url: "https://example.com", validity: 1000000000000, shortcode: "abc"}`:
a validity of `10^12` minutes puts the expiry beyond the range of `Date`. -/
def hugeBody : CreateBody :=
  { url := .str "https://example.com", validity := .num 1000000000000,
    shortcode := .str "abc" }

/-- The store after `hugeBody` was handled in the empty store: the record under
`"abc"` has the Invalid Date as `expiresAt`. -/
def invalidDateStore : Store :=
  { urlStore := [(.str "abc",
      { id := "id-1", originalUrl := .str "https://example.com", shortcode := .str "abc"
        createdAt := .time 1000, expiresAt := .invalid, validity := .num 1000000000000 })]
    clickData := [(.str "abc", [])] }

/-- Surroundings of a redirect request: clock at `5000` ms, no referrer header. -/
def sampleRedirectEnv : RedirectEnv :=
  { nowCheck := 5000, nowClick := 5000, referer := none, referrer := none
    random := ⟨0, 1, Nat.zero_lt_one⟩ }

/-- The click event built from `sampleRedirectEnv`. -/
def sampleClick : ClickInfo :=
  { timestamp := ⟨5000⟩, referrer := "Direct", location := some "US" }

/-- The body `{url: "https://example.com", validity: 0}`. -/
def zeroValidityBody : CreateBody :=
  { url := .str "https://example.com", validity := .num 0, shortcode := .str "abc" }

/-- The body `{url: "https://example.com", validity: null}`. -/
def nullValidityBody : CreateBody :=
  { url := .str "https://example.com", validity := .null, shortcode := .str "abc" }

/-- Surroundings of a create request in which the clock advances by one
millisecond between `Date.now()` and `new Date()`. -/
def driftCreateEnv : CreateEnv :=
  { nowExpiry := 1000, nowCreated := 1001, uuid := "id-1", random := zeroRandom }

/-- Two redirects for `"abc"` with a stats request and a create request between
them. -/
def clickRequests : List (Nat × Request) :=
  [(0, .redirect "abc" sampleRedirectEnv), (0, .stats "abc" 5000),
    (1, .create plainBody sampleCreateEnv), (0, .redirect "abc" sampleRedirectEnv)]

/-- The steps of handling `clickRequests` from `sampleStore`. -/
def clickSteps : List Step := (run sampleConfig sampleStore clickRequests).getD []

/-- The store after `plainBody` was handled in `sampleStore`: the generated code
`"AAAAAA"` was free. -/
def sampleStore2 : Store :=
  { urlStore := sampleStore.urlStore ++
      [(.str "AAAAAA", buildUrlData plainBody sampleCreateEnv (.str "AAAAAA"))]
    clickData := sampleStore.clickData ++ [(.str "AAAAAA", [])] }

/-- The registry and the click ledger have the same keys. -/
def SameKeys (s : Store) : Prop := ∀ key, s.urlStore.has key = s.clickData.has key

/-- The frontend's `isValidShortcode` (`UrlShortener.jsx`): the empty field is
accepted, any other text must match `/^[a-zA-Z0-9]{3,20}$/`. -/
def isValidShortcode (shortcode : String) : Bool :=
  if shortcode = "" then true
  else shortcode.data.all Char.isAlphanum && decide (3 ≤ shortcode.length) &&
    decide (shortcode.length ≤ 20)

/-- A string of 3 to 20 alphanumeric characters. -/
def WellFormedCode (c : String) : Prop :=
  3 ≤ c.length ∧ c.length ≤ 20 ∧ ∀ ch ∈ c.data, ch.isAlphanum = true

/-- Every record of the registry is stored under, and carries, a shortcode that is
a string of 3 to 20 alphanumeric characters. -/
def FormatOk (s : Store) : Prop :=
  ∀ key urlData, (key, urlData) ∈ s.urlStore →
    ∃ c, key = .str c ∧ urlData.shortcode = .str c ∧ WellFormedCode c

/-- A request as the frontend sends it: a create request carries no shortcode (or
a falsy one), or a string that passed `isValidShortcode`. -/
def Request.prevalidated : Request → Prop
  | .create body _ =>
    body.shortcode.truthy = true →
      ∃ c, body.shortcode = .str c ∧ isValidShortcode c = true
  | _ => True

/-- The body `{url: "https://example.com", shortcode: "a"}`. -/
def shortBody : CreateBody :=
  { url := .str "https://example.com", validity := .undefined, shortcode := .str "a" }

/-- The body `{validity: 5, shortcode: "abc"}`: the url is missing. -/
def noUrlBody : CreateBody :=
  { url := .undefined, validity := .num 5, shortcode := .str "abc" }

/-- The body `{url: "https://example.com", shortcode: "AAAAAA"}`. -/
def takenBody : CreateBody :=
  { url := .str "https://example.com", validity := .undefined, shortcode := .str "AAAAAA" }

/-- The store after `takenBody` was handled in the empty store. -/
def takenStore : Store :=
  { urlStore := [(.str "AAAAAA", buildUrlData takenBody sampleCreateEnv (.str "AAAAAA"))]
    clickData := [(.str "AAAAAA", [])] }

/-- The body `{url: "https://example.com", shortcode: ""}`. -/
def emptyCodeBody : CreateBody :=
  { url := .str "https://example.com", validity := .undefined, shortcode := .str "" }

/-- A create request that is valid apart from its shortcode: the url is valid, the
validity is absent or a positive number, and the expiry it leads to is a valid
date. -/
def CreateBody.otherwiseValid (cfg : Config) (body : CreateBody) (env : CreateEnv) : Prop :=
  body.validUrl cfg ∧ body.validValidity ∧
    ∃ expiry, toISOString (expiryTime env.nowExpiry (defaultValidity body.validity)) =
      some expiry

/-- The same body with the shortcode field omitted. -/
def CreateBody.withoutShortcode (body : CreateBody) : CreateBody :=
  { url := body.url, validity := body.validity, shortcode := .undefined }

/-- A second create request for the shortcode `"abc"`, with another url. -/
def rivalBody : CreateBody :=
  { url := .str "https://example.org", validity := .num 2, shortcode := .str "abc" }

/-- A schedule of the race between `sampleBody` and `rivalBody`: the first handler
runs to its `await`, the second one runs to its `await` and then to its end, the
first one finishes. -/
def sampleSchedule : List Bool := [true, false, false, true]

/-- The race at the end of `sampleSchedule`. -/
def sampleRaceEnd : Race :=
  { store := sampleStore
    first := .done (.json 201 (.created "http://localhost:3001/abc" ⟨61000⟩))
    second := .done (.json 409 (.error "Shortcode already exists")) }

/-! ## Facts about maps -/

theorem JsMap.has_eq_isSome_get {α : Type} (m : JsMap α) (key : JVal) :
    m.has key = (m.get key).isSome := by
  induction m with
  | nil => rfl
  | cons e m ih =>
    obtain ⟨k, v⟩ := e
    by_cases h : k = key <;> simp [JsMap.has, JsMap.get, h, ih]

theorem JsMap.get_eq_none_of_has_false {α : Type} {m : JsMap α} {key : JVal}
    (h : m.has key = false) : m.get key = none := by
  rw [JsMap.has_eq_isSome_get] at h
  cases hg : m.get key with
  | none => rfl
  | some v => simp [hg] at h

theorem JsMap.get_set_self {α : Type} (m : JsMap α) (key : JVal) (val : α) :
    (m.set key val).get key = some val := by
  induction m with
  | nil => simp [JsMap.set, JsMap.get]
  | cons e m ih =>
    obtain ⟨k, v⟩ := e
    by_cases h : k = key <;> simp [JsMap.set, JsMap.get, h, ih]

theorem JsMap.get_set_ne {α : Type} (m : JsMap α) {key key' : JVal} (val : α)
    (hne : key' ≠ key) : (m.set key val).get key' = m.get key' := by
  induction m with
  | nil => simp [JsMap.set, JsMap.get, Ne.symm hne]
  | cons e m ih =>
    obtain ⟨k, v⟩ := e
    by_cases h : k = key
    · subst h
      simp [JsMap.set, JsMap.get, Ne.symm hne]
    · by_cases h' : k = key'
      · subst h'
        simp [JsMap.set, JsMap.get, h]
      · simp [JsMap.set, JsMap.get, h, h', ih]

theorem JsMap.has_set {α : Type} (m : JsMap α) (key key' : JVal) (val : α) :
    (m.set key val).has key' = (decide (key' = key) || m.has key') := by
  by_cases h : key' = key
  · subst h
    simp [JsMap.has_eq_isSome_get, JsMap.get_set_self]
  · simp [JsMap.has_eq_isSome_get, JsMap.get_set_ne m val h, h]

theorem JsMap.set_eq_append {α : Type} {m : JsMap α} {key : JVal} (val : α)
    (h : m.has key = false) : m.set key val = m ++ [(key, val)] := by
  induction m with
  | nil => rfl
  | cons e m ih =>
    obtain ⟨k, v⟩ := e
    by_cases hk : k = key
    · simp [JsMap.has, hk] at h
    · simp [JsMap.has, hk] at h
      simp [JsMap.set, hk, ih h]

/-! ## Facts about shortcode generation -/

theorem Draw.floorMul_lt (r : Draw) {n : Nat} (hn : 0 < n) : r.floorMul n < n := by
  unfold Draw.floorMul
  have hden : 0 < r.den := Nat.lt_of_le_of_lt (Nat.zero_le _) r.lt
  rw [Nat.div_lt_iff_lt_mul hden]
  have := Nat.mul_lt_mul_of_pos_right r.lt hn
  rw [Nat.mul_comm r.den n] at this
  exact this

theorem chars_length : chars.length = 62 := by decide

theorem charAt_of_lt (s : String) {i : Nat} (h : i < s.length) :
    ∃ c, c ∈ s.data ∧ charAt s i = String.singleton c := by
  have h' : i < s.data.length := h
  refine ⟨s.data[i], List.getElem_mem _, ?_⟩
  simp [charAt, List.get?_eq_getElem?, List.getElem?_eq_getElem h']

theorem generateShortcodeLoop_data (random : Nat → Draw) (n pos : Nat) (result : String) :
    ∃ l : List Char, l.length = n ∧ (∀ c ∈ l, c ∈ chars.data) ∧
      (generateShortcodeLoop random n pos result).data = result.data ++ l := by
  induction n generalizing pos result with
  | zero => exact ⟨[], rfl, by simp, by simp [generateShortcodeLoop]⟩
  | succ n ih =>
    have hlt : (random pos).floorMul chars.length < chars.length :=
      Draw.floorMul_lt _ (by rw [chars_length]; decide)
    obtain ⟨c, hc, hch⟩ := charAt_of_lt chars hlt
    obtain ⟨l, hl, hmem, hdata⟩ := ih (pos + 1) (result ++ charAt chars ((random pos).floorMul chars.length))
    refine ⟨c :: l, by simp [hl], ?_, ?_⟩
    · intro x hx
      rcases List.mem_cons.mp hx with rfl | hx
      · exact hc
      · exact hmem x hx
    · rw [generateShortcodeLoop, hdata, hch]
      simp [String.data_append, String.singleton]

theorem generateShortcode_spec (random : Nat → Draw) (pos : Nat) :
    (generateShortcode random pos).length = 6 ∧
      ∀ c ∈ (generateShortcode random pos).data, c ∈ chars.data := by
  obtain ⟨l, hl, hmem, hdata⟩ := generateShortcodeLoop_data random 6 pos ""
  have hd : (generateShortcode random pos).data = l := by
    simpa [generateShortcode] using hdata
  refine ⟨?_, ?_⟩
  · show (generateShortcode random pos).data.length = 6
    rw [hd, hl]
  · rw [hd]; exact hmem

theorem generateShortcode_ne_empty (random : Nat → Draw) (pos : Nat) :
    generateShortcode random pos ≠ "" := by
  intro h
  have := (generateShortcode_spec random pos).1
  rw [h] at this
  exact absurd this (by decide)

theorem generateUntilFree_spec {α : Type} (urlStore : JsMap α) (random : Nat → Draw)
    (fuel pos : Nat) (c : String) (h : generateUntilFree urlStore random fuel pos = some c) :
    urlStore.has (.str c) = false ∧ ∃ p, c = generateShortcode random p := by
  induction fuel generalizing pos with
  | zero => simp [generateUntilFree] at h
  | succ fuel ih =>
    simp only [generateUntilFree] at h
    by_cases hhas : urlStore.has (.str (generateShortcode random pos)) = true
    · rw [if_pos hhas] at h
      exact ih (pos + 6) h
    · rw [if_neg hhas] at h
      have hc : generateShortcode random pos = c := Option.some.inj h
      subst hc
      exact ⟨by simpa using hhas, pos, rfl⟩

/-! ## Facts about the create handler -/

/-- The early replies of the create handler: 400 and 409, never 201. -/
theorem chooseShortcode_inl {cfg : Config} {fuel : Nat} {s : Store} {body : CreateBody}
    {env : CreateEnv} {reply : Reply}
    (h : chooseShortcode cfg fuel s body env = some (.inl reply)) :
    reply.status = some 400 ∨ reply.status = some 409 := by
  unfold chooseShortcode at h
  simp only [] at h
  split_ifs at h with h1 h2 h3 h4 h5
  all_goals first
    | (cases h; first | exact Or.inl rfl | exact Or.inr rfl)
    | (cases hg : generateUntilFree s.urlStore env.random fuel 0 <;> simp [hg] at h)

/-- The chosen shortcode is free in the registry and truthy; it is the requested
one when that is truthy and a generated one otherwise. -/
theorem chooseShortcode_inr {cfg : Config} {fuel : Nat} {s : Store} {body : CreateBody}
    {env : CreateEnv} {code : JVal}
    (h : chooseShortcode cfg fuel s body env = some (.inr code)) :
    s.urlStore.has code = false ∧ code.truthy = true ∧
      (body.shortcode.truthy = true → code = body.shortcode) ∧
      (body.shortcode.truthy = false →
        ∃ p, code = .str (generateShortcode env.random p)) := by
  unfold chooseShortcode at h
  simp only [] at h
  split_ifs at h with h1 h2 h3 h4 h5
  · cases h
  · cases h
  · cases h
  · cases h
  · cases h
    refine ⟨by simpa using h5, h4, fun _ => rfl, fun hf => ?_⟩
    rw [h4] at hf; cases hf
  · cases hg : generateUntilFree s.urlStore env.random fuel 0 with
    | none => simp [hg] at h
    | some c =>
      simp [hg] at h
      subst h
      obtain ⟨hfree, p, hp⟩ := generateUntilFree_spec _ _ _ _ _ hg
      refine ⟨hfree, ?_, fun ht => absurd ht h4, fun _ => ⟨p, by rw [hp]⟩⟩
      have : c ≠ "" := hp ▸ generateShortcode_ne_empty env.random p
      simp [JVal.truthy, this]

/-- Every outcome of the create handler: an early reply in an unchanged store, or
the record stored under the chosen shortcode. -/
theorem createHandler_cases {cfg : Config} {fuel : Nat} {s : Store} {body : CreateBody}
    {env : CreateEnv} {reply : Reply} {s' : Store}
    (h : createHandler cfg fuel s body env = some (reply, s')) :
    (chooseShortcode cfg fuel s body env = some (.inl reply) ∧ s' = s) ∨
      ∃ code, chooseShortcode cfg fuel s body env = some (.inr code) ∧
        storeAndReply cfg s body env code = (reply, s') := by
  unfold createHandler at h
  cases hc : chooseShortcode cfg fuel s body env with
  | none => simp [hc] at h
  | some r =>
    cases r with
    | inl r0 =>
      simp [hc] at h
      exact Or.inl ⟨by rw [h.1], h.2.symm⟩
    | inr code =>
      simp [hc] at h
      exact Or.inr ⟨code, rfl, h⟩

theorem storeAndReply_store (cfg : Config) (s : Store) (body : CreateBody) (env : CreateEnv)
    (code : JVal) :
    (storeAndReply cfg s body env code).2 =
      { urlStore := s.urlStore.set code (buildUrlData body env code)
        clickData := s.clickData.set code [] } := by
  unfold storeAndReply
  simp only []
  split <;> rfl

theorem storeAndReply_reply (cfg : Config) (s : Store) (body : CreateBody) (env : CreateEnv)
    (code : JVal) :
    (storeAndReply cfg s body env code).1 =
      match toISOString (buildUrlData body env code).expiresAt with
      | some expiry => .json 201 (.created (shortLink cfg code) expiry)
      | none => .json 500 (.error "Internal server error") := by
  unfold storeAndReply
  simp only []
  split <;> simp_all

/-- A create request answered 201 went through the store-and-reply part, with the
chosen shortcode free before and an expiry that serialises. -/
theorem createHandler_created {cfg : Config} {fuel : Nat} {s : Store} {body : CreateBody}
    {env : CreateEnv} {reply : Reply} {s' : Store}
    (h : createHandler cfg fuel s body env = some (reply, s'))
    (hst : reply.status = some 201) :
    ∃ code expiry, chooseShortcode cfg fuel s body env = some (.inr code) ∧
      toISOString (buildUrlData body env code).expiresAt = some expiry ∧
      reply = .json 201 (.created (shortLink cfg code) expiry) ∧
      s' = { urlStore := s.urlStore.set code (buildUrlData body env code)
             clickData := s.clickData.set code [] } := by
  rcases createHandler_cases h with ⟨hc, _⟩ | ⟨code, hc, hs⟩
  · rcases chooseShortcode_inl hc with h4 | h4 <;> rw [h4] at hst <;> cases hst
  · have h1 := storeAndReply_reply cfg s body env code
    have h2 := storeAndReply_store cfg s body env code
    rw [hs] at h1 h2
    simp only [] at h1 h2
    cases hiso : toISOString (buildUrlData body env code).expiresAt with
    | none =>
      rw [hiso] at h1
      simp only [] at h1
      rw [h1] at hst
      cases hst
    | some expiry =>
      rw [hiso] at h1
      exact ⟨code, expiry, hc, hiso, h1, h2⟩

/-! ## Facts about single requests -/

/-- The stats handler never changes the store. -/
theorem statsHandler_store (cfg : Config) (s : Store) (shortcode : String) (now : Int) :
    (statsHandler cfg s shortcode now).2 = s := by
  unfold statsHandler
  split_ifs
  · rfl
  · split
    · rfl
    · simp only []
      split_ifs
      · rfl
      · split <;> rfl

/-- The redirect handler never changes the registry. -/
theorem redirectHandler_urlStore (s : Store) (shortcode : String) (env : RedirectEnv) :
    (redirectHandler s shortcode env).2.urlStore = s.urlStore := by
  unfold redirectHandler
  split_ifs
  · rfl
  · split
    · rfl
    · simp only []
      split_ifs <;> rfl

/-- Records are never overwritten: a request leaves every stored record in place. -/
theorem handle_get_urlStore {cfg : Config} {fuel : Nat} {s s' : Store} {req : Request}
    {reply : Reply} (h : handle cfg fuel s req = some (reply, s')) {key : JVal}
    {urlData : UrlData} (hget : s.urlStore.get key = some urlData) :
    s'.urlStore.get key = some urlData := by
  cases req with
  | create body env =>
    rcases createHandler_cases h with ⟨_, hs⟩ | ⟨code, hc, hs⟩
    · rw [hs]; exact hget
    · have h2 := storeAndReply_store cfg s body env code
      rw [hs] at h2
      simp only [] at h2
      have hfree := (chooseShortcode_inr hc).1
      have hne : key ≠ code := by
        intro heq
        rw [heq, JsMap.get_eq_none_of_has_false hfree] at hget
        cases hget
      rw [h2]
      simp only []
      rw [JsMap.get_set_ne _ _ hne]
      exact hget
  | stats shortcode now =>
    simp only [handle, Option.some.injEq] at h
    have := statsHandler_store cfg s shortcode now
    rw [h] at this
    simp only [] at this
    rw [this]; exact hget
  | redirect shortcode env =>
    simp only [handle, Option.some.injEq] at h
    have := redirectHandler_urlStore s shortcode env
    rw [h] at this
    simp only [] at this
    rw [this]; exact hget

theorem handle_keysTruthy {cfg : Config} {fuel : Nat} {s s' : Store} {req : Request}
    {reply : Reply} (h : handle cfg fuel s req = some (reply, s')) (hs : KeysTruthy s) :
    KeysTruthy s' := by
  cases req with
  | create body env =>
    rcases createHandler_cases h with ⟨_, hs'⟩ | ⟨code, hc, hs'⟩
    · rw [hs']; exact hs
    · have h2 := storeAndReply_store cfg s body env code
      rw [hs'] at h2
      simp only [] at h2
      intro key hkey
      rw [h2] at hkey
      simp only [JsMap.has_set, Bool.or_eq_true, decide_eq_true_eq] at hkey
      rcases hkey with rfl | hkey
      · exact (chooseShortcode_inr hc).2.1
      · exact hs key hkey
  | stats shortcode now =>
    simp only [handle, Option.some.injEq] at h
    have := statsHandler_store cfg s shortcode now
    rw [h] at this
    simp only [] at this
    rw [this]; exact hs
  | redirect shortcode env =>
    simp only [handle, Option.some.injEq] at h
    have := redirectHandler_urlStore s shortcode env
    rw [h] at this
    simp only [] at this
    intro key hkey
    rw [this] at hkey
    exact hs key hkey

theorem Reachable.keysTruthy {cfg : Config} {s : Store} (h : Reachable cfg s) :
    KeysTruthy s := by
  unfold Reachable at h
  induction h with
  | refl => intro key hkey; simp [Store.empty, JsMap.has] at hkey
  | step _ hstep ih => exact handle_keysTruthy hstep ih

theorem ReachableFrom.get_urlStore {cfg : Config} {s t : Store} (h : ReachableFrom cfg s t)
    {key : JVal} {urlData : UrlData} (hget : s.urlStore.get key = some urlData) :
    t.urlStore.get key = some urlData := by
  induction h with
  | refl => exact hget
  | step _ hstep ih => exact handle_get_urlStore hstep ih

theorem sampleStore_reachable : Reachable sampleConfig sampleStore :=
  @ReachableFrom.step sampleConfig Store.empty Store.empty sampleStore 0
    (.create sampleBody sampleCreateEnv)
    (.json 201 (.created "http://localhost:3001/abc" ⟨61000⟩))
    ReachableFrom.refl (by decide)

/-! ## Collision rejection -/

/-- C1. In every store the server can reach, a create request with a valid url, a
valid validity and a requested shortcode that is already a key of the registry is
answered 409, whatever the fuel, and the store (registry and click ledger) is
returned exactly as it was. -/
theorem collision_rejected (cfg : Config) (fuel : Nat) (s : Store) (body : CreateBody)
    (env : CreateEnv) (hs : Reachable cfg s) (hurl : body.validUrl cfg)
    (hval : body.validValidity) (hpresent : s.urlStore.has body.shortcode = true) :
    createHandler cfg fuel s body env =
      some (.json 409 (.error "Shortcode already exists"), s) := by
  have htruthy : body.shortcode.truthy = true := hs.keysTruthy _ hpresent
  have hv : ((defaultValidity body.validity).truthy &&
      (!(defaultValidity body.validity).isNumber || (defaultValidity body.validity).leZero))
        = false := by
    rcases hval with h | ⟨n, hn, h⟩
    · rw [h]; decide
    · rw [h]
      have h0 : n ≠ 0 := by omega
      have h1 : ¬ n ≤ 0 := by omega
      simp [defaultValidity, JVal.truthy, JVal.isNumber, JVal.leZero, h0, h1]
  obtain ⟨hu1, hu2⟩ := hurl
  unfold createHandler chooseShortcode
  simp only []
  rw [if_neg (by simp [hu1]), if_neg (by simp [hu2]), if_neg (by simp [hv]), if_pos htruthy,
    if_pos hpresent]

theorem collision_rejected_witness :
    Reachable sampleConfig sampleStore ∧ sampleBody.validUrl sampleConfig ∧
      sampleBody.validValidity ∧ sampleStore.urlStore.has sampleBody.shortcode = true ∧
      createHandler sampleConfig 0 sampleStore sampleBody sampleCreateEnv =
        some (.json 409 (.error "Shortcode already exists"), sampleStore) :=
  ⟨sampleStore_reachable, ⟨by decide, by decide⟩, Or.inr ⟨1, by decide, rfl⟩, by decide,
    collision_rejected sampleConfig 0 sampleStore sampleBody sampleCreateEnv
      sampleStore_reachable ⟨by decide, by decide⟩ (Or.inr ⟨1, by decide, rfl⟩) (by decide)⟩

/-! ## Uniqueness of shortcodes -/

theorem handle_has_urlStore {cfg : Config} {fuel : Nat} {s s' : Store} {req : Request}
    {reply : Reply} (h : handle cfg fuel s req = some (reply, s')) {key : JVal}
    (hhas : s.urlStore.has key = true) : s'.urlStore.has key = true := by
  rw [JsMap.has_eq_isSome_get] at hhas ⊢
  cases hg : s.urlStore.get key with
  | none => simp [hg] at hhas
  | some urlData => simp [handle_get_urlStore h hg]

/-- A step that created a record: the shortcode was free before, and the registry
after is the registry before with the new record appended under that shortcode. -/
theorem Step.created_spec {cfg : Config} {st : Step} {code : JVal}
    (hstep : handle cfg st.fuel st.before st.req = some (st.reply, st.after))
    (hc : st.created cfg = some code) :
    st.before.urlStore.has code = false ∧
      ∃ urlData : UrlData, urlData.shortcode = code ∧
        st.after.urlStore = st.before.urlStore ++ [(code, urlData)] := by
  unfold Step.created at hc
  cases hreq : st.req with
  | create body env =>
    rw [hreq] at hc hstep
    simp only [] at hc
    by_cases hst : st.reply.status = some 201
    · rw [if_pos hst] at hc
      obtain ⟨code', expiry, hch, _, _, hafter⟩ := createHandler_created hstep hst
      rw [hch] at hc
      simp only [Option.some.injEq] at hc
      subst hc
      have hfree := (chooseShortcode_inr hch).1
      refine ⟨hfree, buildUrlData body env code', rfl, ?_⟩
      rw [hafter]
      exact JsMap.set_eq_append _ hfree
    · rw [if_neg hst] at hc; cases hc
  | stats shortcode now => rw [hreq] at hc; cases hc
  | redirect shortcode env => rw [hreq] at hc; cases hc

/-- Along a run, every step is a handled request, the shortcodes created are
pairwise distinct, and none of them was a key of the starting registry. -/
theorem run_created {cfg : Config} {reqs : List (Nat × Request)} {s : Store}
    {steps : List Step} (h : run cfg s reqs = some steps) :
    (∀ st ∈ steps, handle cfg st.fuel st.before st.req = some (st.reply, st.after)) ∧
      (steps.filterMap (Step.created cfg)).Nodup ∧
      ∀ code ∈ steps.filterMap (Step.created cfg), s.urlStore.has code = false := by
  induction reqs generalizing s steps with
  | nil =>
    simp only [run, Option.some.injEq] at h
    subst h
    simp
  | cons fr rest ih =>
    obtain ⟨fuel, req⟩ := fr
    simp only [run] at h
    cases hh : handle cfg fuel s req with
    | none => simp [hh] at h
    | some rs =>
      obtain ⟨reply, s'⟩ := rs
      rw [hh] at h
      simp only [] at h
      cases hr : run cfg s' rest with
      | none => simp [hr] at h
      | some steps' =>
        rw [hr] at h
        simp only [Option.map_some', Option.some.injEq] at h
        subst h
        obtain ⟨ih1, ih2, ih3⟩ := ih hr
        have hfree' : ∀ code ∈ steps'.filterMap (Step.created cfg),
            s.urlStore.has code = false := by
          intro code hcode
          have := ih3 code hcode
          cases hb : s.urlStore.has code with
          | false => rfl
          | true => rw [handle_has_urlStore hh hb] at this; cases this
        refine ⟨?_, ?_, ?_⟩
        · intro st hst
          rcases List.mem_cons.mp hst with rfl | hst
          · exact hh
          · exact ih1 st hst
        · cases hc : Step.created cfg ⟨s, fuel, req, reply, s'⟩ with
          | none => rw [List.filterMap_cons_none hc]; exact ih2
          | some code =>
            rw [List.filterMap_cons_some hc]
            refine List.nodup_cons.mpr ⟨?_, ih2⟩
            intro hmem
            obtain ⟨_, urlData, _, hafter⟩ :=
              @Step.created_spec cfg ⟨s, fuel, req, reply, s'⟩ _ hh hc
            have hin : s'.urlStore.has code = true := by
              simp only [] at hafter
              rw [hafter, JsMap.has_eq_isSome_get]
              have : (s.urlStore ++ [(code, urlData)] : JsMap UrlData) =
                  JsMap.set s.urlStore code urlData := by
                rw [JsMap.set_eq_append]
                exact (@Step.created_spec cfg ⟨s, fuel, req, reply, s'⟩ _ hh hc).1
              rw [this, JsMap.get_set_self]; rfl
            rw [ih3 code hmem] at hin
            cases hin
        · intro code hcode
          cases hc : Step.created cfg ⟨s, fuel, req, reply, s'⟩ with
          | none =>
            rw [List.filterMap_cons_none hc] at hcode
            exact hfree' code hcode
          | some code' =>
            rw [List.filterMap_cons_some hc] at hcode
            rcases List.mem_cons.mp hcode with rfl | hcode
            · exact (@Step.created_spec cfg ⟨s, fuel, req, reply, s'⟩ _ hh hc).1
            · exact hfree' code hcode

/-- C2. For every sequence of create, stats and redirect requests handled one after
the other from the empty store, the shortcodes under which the create requests
answered 201 stored their records are pairwise distinct, and each such request
stored its record under a shortcode that was not a key of the registry just
before it: the registry after is the registry before plus that one record. -/
theorem created_shortcodes_distinct (cfg : Config) (reqs : List (Nat × Request))
    (steps : List Step) (h : run cfg Store.empty reqs = some steps) :
    (steps.filterMap (Step.created cfg)).Nodup ∧
      ∀ st ∈ steps, ∀ code, st.created cfg = some code →
        st.before.urlStore.has code = false ∧
          ∃ urlData : UrlData, urlData.shortcode = code ∧
            st.after.urlStore = st.before.urlStore ++ [(code, urlData)] := by
  obtain ⟨h1, h2, _⟩ := run_created h
  exact ⟨h2, fun st hst code hc => Step.created_spec (h1 st hst) hc⟩

theorem created_shortcodes_distinct_witness :
    run sampleConfig Store.empty sampleRequests = some sampleSteps ∧
      sampleSteps.filterMap (Step.created sampleConfig) = [.str "abc", .str "AAAAAA"] ∧
      (sampleSteps.filterMap (Step.created sampleConfig)).Nodup ∧
      ∀ st ∈ sampleSteps, ∀ code, st.created sampleConfig = some code →
        st.before.urlStore.has code = false ∧
          ∃ urlData : UrlData, urlData.shortcode = code ∧
            st.after.urlStore = st.before.urlStore ++ [(code, urlData)] :=
  ⟨rfl, by decide,
    (created_shortcodes_distinct sampleConfig sampleRequests sampleSteps rfl).1,
    (created_shortcodes_distinct sampleConfig sampleRequests sampleSteps rfl).2⟩

/-! ## Round trip -/

theorem shortLink_str_injective (cfg : Config) {c c' : String}
    (h : shortLink cfg (.str c) = shortLink cfg (.str c')) : c = c' := by
  unfold shortLink toStr at h
  have hd := congrArg String.data h
  simp only [String.data_append, List.append_cancel_left_eq] at hd
  exact String.ext hd

/-- C3 (as stated, refuted). The body `{url, validity: 1, shortcode: 123}` is
answered 201 with the short link `http://localhost:3001/123`, the record is stored
under the number `123`, and the stats request for the code `"123"` of that link,
made before the expiry, is answered 404. -/
theorem round_trip_numeric_shortcode :
    createHandler sampleConfig 0 Store.empty numericBody sampleCreateEnv =
        some (.json 201 (.created "http://localhost:3001/123" ⟨61000⟩), numericStore) ∧
      statsHandler sampleConfig numericStore "123" 1000 =
        (.json 404 (.error "Shortcode not found"), numericStore) := by
  constructor <;> decide

/-- C3 (amended). When a create request whose requested shortcode, if any, is a
string is answered 201 with short link `http://localhost:PORT/c` and expiry string
`expiry`, then after any further requests a stats request for `c` made at a time
not later than that expiry is answered 200 with `originalUrl` equal to the
submitted url and `expiry` equal to the string the create reply carried. -/
theorem round_trip (cfg : Config) (fuel : Nat) (s s' t : Store) (body : CreateBody)
    (env : CreateEnv) (link c : String) (expiry : IsoString) (now : Int)
    (hcreate : createHandler cfg fuel s body env =
      some (.json 201 (.created link expiry), s'))
    (hstr : body.shortcode.truthy = true → ∃ c0, body.shortcode = .str c0)
    (hlink : link = shortLink cfg (.str c))
    (hlater : ReachableFrom cfg s' t)
    (hnow : now ≤ expiry.ms) :
    ∃ creationDate clicks,
      statsHandler cfg t c now =
        (.json 200 (.stats link expiry body.url creationDate clicks.length clicks), t) := by
  obtain ⟨code, expiry', hch, hiso, hreply, hs'⟩ := createHandler_created hcreate rfl
  simp only [Reply.json.injEq, Payload.created.injEq, true_and] at hreply
  obtain ⟨hl, he⟩ := hreply
  subst he
  obtain ⟨_, _, hreq, hgen⟩ := chooseShortcode_inr hch
  have hcode : code = .str c := by
    have : ∃ c0, code = .str c0 := by
      cases ht : body.shortcode.truthy with
      | true =>
        obtain ⟨c0, hc0⟩ := hstr ht
        exact ⟨c0, by rw [hreq ht, hc0]⟩
      | false =>
        obtain ⟨p, hp⟩ := hgen ht
        exact ⟨_, hp⟩
    obtain ⟨c0, hc0⟩ := this
    rw [hc0] at hl
    rw [hc0, shortLink_str_injective cfg (hl.symm.trans hlink)]
  subst hcode
  have hget' : s'.urlStore.get (.str c) = some (buildUrlData body env (.str c)) := by
    rw [hs']; exact JsMap.get_set_self _ _ _
  have hget := hlater.get_urlStore hget'
  have hhas : t.urlStore.has (.str c) = true := by
    rw [JsMap.has_eq_isSome_get, hget]; rfl
  cases hexp : (buildUrlData body env (.str c)).expiresAt with
  | invalid => rw [hexp] at hiso; cases hiso
  | time e =>
    rw [hexp] at hiso
    simp only [toISOString, Option.some.injEq] at hiso
    subst hiso
    have hna : nowAfter now (JsDate.time e) = false := by
      simp only [nowAfter, decide_eq_false_iff_not, not_lt]
      exact hnow
    refine ⟨⟨env.nowCreated⟩, t.clicks (.str c), ?_⟩
    unfold statsHandler
    rw [if_neg (by simp [hhas]), hget]
    simp only []
    rw [hexp, if_neg (by simp [hna])]
    rw [hl]
    rfl

theorem round_trip_witness :
    createHandler sampleConfig 0 Store.empty sampleBody sampleCreateEnv =
        some (.json 201 (.created "http://localhost:3001/abc" ⟨61000⟩), sampleStore) ∧
      (61000 : Int) ≤ (⟨61000⟩ : IsoString).ms ∧
      ∃ creationDate clicks,
        statsHandler sampleConfig sampleStore "abc" 61000 =
          (.json 200 (.stats "http://localhost:3001/abc" ⟨61000⟩ sampleBody.url creationDate
            clicks.length clicks), sampleStore) :=
  ⟨by decide, by decide,
    round_trip sampleConfig 0 Store.empty sampleStore sampleStore sampleBody sampleCreateEnv
      "http://localhost:3001/abc" "abc" ⟨61000⟩ 61000 (by decide)
      (fun _ => ⟨"abc", rfl⟩) (by decide) ReachableFrom.refl (by decide)⟩

/-! ## Resolve semantics and the expiry boundary -/

/-- Every outcome of the redirect handler. -/
theorem redirectHandler_cases (s : Store) (shortcode : String) (env : RedirectEnv) :
    (s.urlStore.has (.str shortcode) = false ∧
        redirectHandler s shortcode env = (.json 404 (.error "Shortcode not found"), s)) ∨
      (∃ urlData, s.urlStore.get (.str shortcode) = some urlData ∧
        nowAfter env.nowCheck urlData.expiresAt = true ∧
        redirectHandler s shortcode env = (.json 410 (.error "URL has expired"), s)) ∨
      (∃ urlData, s.urlStore.get (.str shortcode) = some urlData ∧
        nowAfter env.nowCheck urlData.expiresAt = false ∧
        redirectHandler s shortcode env =
          (.redirect 302 urlData.originalUrl,
            { urlStore := s.urlStore
              clickData := s.clickData.set (.str shortcode)
                (s.clicks (.str shortcode) ++ [buildClickInfo env]) })) := by
  cases hhas : s.urlStore.has (.str shortcode) with
  | false =>
    refine Or.inl ⟨rfl, ?_⟩
    unfold redirectHandler
    rw [if_pos (by simp [hhas])]
  | true =>
    have hsome := hhas
    rw [JsMap.has_eq_isSome_get] at hsome
    cases hget : s.urlStore.get (.str shortcode) with
    | none => rw [hget] at hsome; cases hsome
    | some urlData =>
      cases hna : nowAfter env.nowCheck urlData.expiresAt with
      | true =>
        refine Or.inr (Or.inl ⟨urlData, rfl, hna, ?_⟩)
        unfold redirectHandler
        rw [if_neg (by simp [hhas]), hget]
        simp only []
        rw [if_pos hna]
      | false =>
        refine Or.inr (Or.inr ⟨urlData, rfl, hna, ?_⟩)
        unfold redirectHandler
        rw [if_neg (by simp [hhas]), hget]
        simp only []
        rw [if_neg (by simp [hna])]

/-- Every outcome of the stats handler. -/
theorem statsHandler_cases (cfg : Config) (s : Store) (shortcode : String) (now : Int) :
    (s.urlStore.has (.str shortcode) = false ∧
        statsHandler cfg s shortcode now = (.json 404 (.error "Shortcode not found"), s)) ∨
      (∃ urlData, s.urlStore.get (.str shortcode) = some urlData ∧
        nowAfter now urlData.expiresAt = true ∧
        statsHandler cfg s shortcode now = (.json 410 (.error "URL has expired"), s)) ∨
      (∃ urlData expiry creationDate, s.urlStore.get (.str shortcode) = some urlData ∧
        nowAfter now urlData.expiresAt = false ∧
        toISOString urlData.expiresAt = some expiry ∧
        toISOString urlData.createdAt = some creationDate ∧
        statsHandler cfg s shortcode now =
          (.json 200 (.stats (shortLink cfg (.str shortcode)) expiry urlData.originalUrl
            creationDate (s.clicks (.str shortcode)).length (s.clicks (.str shortcode))), s)) ∨
      (∃ urlData, s.urlStore.get (.str shortcode) = some urlData ∧
        nowAfter now urlData.expiresAt = false ∧
        (toISOString urlData.expiresAt = none ∨ toISOString urlData.createdAt = none) ∧
        statsHandler cfg s shortcode now = (.rejected, s)) := by
  cases hhas : s.urlStore.has (.str shortcode) with
  | false =>
    refine Or.inl ⟨rfl, ?_⟩
    unfold statsHandler
    rw [if_pos (by simp [hhas])]
  | true =>
    have hsome := hhas
    rw [JsMap.has_eq_isSome_get] at hsome
    cases hget : s.urlStore.get (.str shortcode) with
    | none => rw [hget] at hsome; cases hsome
    | some urlData =>
      cases hna : nowAfter now urlData.expiresAt with
      | true =>
        refine Or.inr (Or.inl ⟨urlData, rfl, hna, ?_⟩)
        unfold statsHandler
        rw [if_neg (by simp [hhas]), hget]
        simp only []
        rw [if_pos hna]
      | false =>
        refine Or.inr (Or.inr ?_)
        cases he : toISOString urlData.expiresAt with
        | none =>
          refine Or.inr ⟨urlData, rfl, hna, Or.inl he, ?_⟩
          unfold statsHandler
          rw [if_neg (by simp [hhas]), hget]
          simp only []
          rw [if_neg (by simp [hna]), he]
        | some expiry =>
          cases hc : toISOString urlData.createdAt with
          | none =>
            refine Or.inr ⟨urlData, rfl, hna, Or.inr hc, ?_⟩
            unfold statsHandler
            rw [if_neg (by simp [hhas]), hget]
            simp only []
            rw [if_neg (by simp [hna]), he, hc]
          | some creationDate =>
            refine Or.inl ⟨urlData, expiry, creationDate, rfl, hna, he, hc, ?_⟩
            unfold statsHandler
            rw [if_neg (by simp [hhas]), hget]
            simp only []
            rw [if_neg (by simp [hna]), he, hc]

/-- Both lookup handlers answer 404 exactly for the shortcodes that are not keys of
the registry. -/
theorem resolve_unknown (cfg : Config) (s : Store) (c : String) (now : Int)
    (env : RedirectEnv) :
    ((statsHandler cfg s c now).1.status = some 404 ↔ s.urlStore.has (.str c) = false) ∧
      ((redirectHandler s c env).1.status = some 404 ↔ s.urlStore.has (.str c) = false) := by
  constructor
  · rcases statsHandler_cases cfg s c now with ⟨h, hr⟩ | ⟨u, hg, _, hr⟩ |
      ⟨u, _, _, hg, _, _, _, hr⟩ | ⟨u, hg, _, _, hr⟩
    · rw [hr]; simp [Reply.status, h]
    · rw [hr]; simp [Reply.status, JsMap.has_eq_isSome_get, hg]
    · rw [hr]; simp [Reply.status, JsMap.has_eq_isSome_get, hg]
    · rw [hr]; simp [Reply.status, JsMap.has_eq_isSome_get, hg]
  · rcases redirectHandler_cases s c env with ⟨h, hr⟩ | ⟨u, hg, _, hr⟩ | ⟨u, hg, _, hr⟩
    · rw [hr]; simp [Reply.status, h]
    · rw [hr]; simp [Reply.status, JsMap.has_eq_isSome_get, hg]
    · rw [hr]; simp [Reply.status, JsMap.has_eq_isSome_get, hg]

theorem statsHandler_status_valid (cfg : Config) (s : Store) (c : String) (now : Int)
    (urlData : UrlData) (e created : Int)
    (hget : s.urlStore.get (.str c) = some urlData) (he : urlData.expiresAt = .time e)
    (hc : urlData.createdAt = .time created) :
    (statsHandler cfg s c now).1.status = some (if now > e then 410 else 200) := by
  have hhas : s.urlStore.has (.str c) = true := by
    rw [JsMap.has_eq_isSome_get, hget]; rfl
  rcases statsHandler_cases cfg s c now with ⟨h, hr⟩ | ⟨u, hg, hna, hr⟩ |
    ⟨u, _, _, hg, hna, _, _, hr⟩ | ⟨u, hg, hna, hiso, hr⟩
  · rw [hhas] at h; cases h
  · rw [hget] at hg
    cases hg
    rw [he] at hna
    simp only [nowAfter, decide_eq_true_eq] at hna
    rw [hr, if_pos hna]; rfl
  · rw [hget] at hg
    cases hg
    rw [he] at hna
    simp only [nowAfter, decide_eq_false_iff_not] at hna
    rw [hr, if_neg hna]; rfl
  · rw [hget] at hg
    cases hg
    rw [he, hc] at hiso
    simp [toISOString] at hiso

theorem redirectHandler_status_valid (s : Store) (c : String) (env : RedirectEnv)
    (urlData : UrlData) (e : Int)
    (hget : s.urlStore.get (.str c) = some urlData) (he : urlData.expiresAt = .time e) :
    (redirectHandler s c env).1.status = some (if env.nowCheck > e then 410 else 302) := by
  have hhas : s.urlStore.has (.str c) = true := by
    rw [JsMap.has_eq_isSome_get, hget]; rfl
  rcases redirectHandler_cases s c env with ⟨h, hr⟩ | ⟨u, hg, hna, hr⟩ | ⟨u, hg, hna, hr⟩
  · rw [hhas] at h; cases h
  · rw [hget] at hg
    cases hg
    rw [he] at hna
    simp only [nowAfter, decide_eq_true_eq] at hna
    rw [hr, if_pos hna]; rfl
  · rw [hget] at hg
    cases hg
    rw [he] at hna
    simp only [nowAfter, decide_eq_false_iff_not] at hna
    rw [hr, if_neg hna]; rfl

/-- On a record whose dates are valid, both lookup handlers answer 410 exactly when
the clock is past `expiresAt` and succeed (200, 302) exactly when it is not. -/
theorem resolve_valid_expiry (cfg : Config) (s : Store) (c : String) (now : Int)
    (env : RedirectEnv) (urlData : UrlData) (e created : Int)
    (hget : s.urlStore.get (.str c) = some urlData) (he : urlData.expiresAt = .time e)
    (hc : urlData.createdAt = .time created) (hnow : env.nowCheck = now) :
    ((statsHandler cfg s c now).1.status = some 410 ↔ now > e) ∧
      ((statsHandler cfg s c now).1.status = some 200 ↔ now ≤ e) ∧
      ((redirectHandler s c env).1.status = some 410 ↔ now > e) ∧
      ((redirectHandler s c env).1.status = some 302 ↔ now ≤ e) := by
  rw [statsHandler_status_valid cfg s c now urlData e created hget he hc,
    redirectHandler_status_valid s c env urlData e hget he, hnow]
  by_cases h : now > e
  · have h' : ¬ now ≤ e := by omega
    simp [if_pos h, h, h']
  · have h' : now ≤ e := by omega
    simp [if_neg h, h, h']

/-- C4 (the failing input). The body `{url, validity: 1000000000000, shortcode: "abc"}`
is answered 500 but leaves a record under `"abc"` whose `expiresAt` is the Invalid
Date.  On that store the redirect handler answers 302 although no clock reading is
`<=` that expiry, and the stats handler sends neither 200 nor 404 nor 410. -/
theorem resolve_invalid_date :
    createHandler sampleConfig 0 Store.empty hugeBody sampleCreateEnv =
        some (.json 500 (.error "Internal server error"), invalidDateStore) ∧
      invalidDateStore.urlStore.has (.str "abc") = true ∧
      (invalidDateStore.urlStore.get (.str "abc")).map (fun r => notAfter 5000 r.expiresAt)
        = some false ∧
      redirectHandler invalidDateStore "abc" sampleRedirectEnv =
        (.redirect 302 (.str "https://example.com"),
          { urlStore := invalidDateStore.urlStore
            clickData := [(.str "abc", [sampleClick])] }) ∧
      statsHandler sampleConfig invalidDateStore "abc" 5000 =
        (.rejected, invalidDateStore) := by
  refine ⟨?_, ?_, ?_, ?_, ?_⟩ <;> decide

/-! ## Validity validation -/

/-- A truthy validity that is not a positive number (a negative number, a non-empty
string, `true`) is answered 400 and the store is returned unchanged. -/
theorem truthy_invalid_validity_rejected (cfg : Config) (fuel : Nat) (s : Store)
    (body : CreateBody) (env : CreateEnv) (hurl : body.validUrl cfg)
    (htruthy : body.validity.truthy = true)
    (hbad : ∀ n : Int, body.validity = .num n → n ≤ 0) :
    createHandler cfg fuel s body env =
      some (.json 400 (.error "Validity must be a positive number"), s) := by
  obtain ⟨hu1, hu2⟩ := hurl
  have hdef : defaultValidity body.validity = body.validity := by
    unfold defaultValidity
    rw [if_neg]
    intro h
    rw [h] at htruthy
    cases htruthy
  have hv : (body.validity.truthy && (!body.validity.isNumber || body.validity.leZero))
      = true := by
    rw [htruthy]
    cases hb : body.validity with
    | num n => simp [JVal.isNumber, JVal.leZero, hbad n hb]
    | undefined => rfl
    | null => rfl
    | bool b => rfl
    | str x => rfl
  unfold createHandler chooseShortcode
  simp only []
  rw [if_neg (by simp [hu1]), if_neg (by simp [hu2]), hdef, if_pos hv]

/-- C5 (the failing inputs). The bodies `{url, validity: 0, shortcode: "abc"}` and
`{url, validity: null, shortcode: "abc"}` are answered 201, with the expiry at the
clock reading itself, and a record is added to the registry under `"abc"`. -/
theorem falsy_validity_accepted :
    (createHandler sampleConfig 0 Store.empty zeroValidityBody sampleCreateEnv).map Prod.fst
        = some (.json 201 (.created "http://localhost:3001/abc" ⟨1000⟩)) ∧
      (createHandler sampleConfig 0 Store.empty zeroValidityBody sampleCreateEnv).map
        (fun r => r.2.urlStore.keys) = some [.str "abc"] ∧
      (createHandler sampleConfig 0 Store.empty nullValidityBody sampleCreateEnv).map Prod.fst
        = some (.json 201 (.created "http://localhost:3001/abc" ⟨1000⟩)) ∧
      (createHandler sampleConfig 0 Store.empty nullValidityBody sampleCreateEnv).map
        (fun r => r.2.urlStore.keys) = some [.str "abc"] := by
  refine ⟨?_, ?_, ?_, ?_⟩ <;> decide

/-! ## Expiry arithmetic -/

/-- C6 (as stated, refuted). When the clock advances from 1000 ms to 1001 ms between
the two readings of the create handler, the request `{url, validity: 1,
shortcode: "abc"}` is answered 201 and the stored record has `createdAt` 1001 and
`expiresAt` 61000, which is not `createdAt + 1 * 60000`. -/
theorem expiry_drift :
    (createHandler sampleConfig 0 Store.empty sampleBody driftCreateEnv).map
        (fun r => (r.1.status, (r.2.urlStore.get (.str "abc")).map
          (fun u => (u.createdAt, u.expiresAt)))) =
      some (some 201, some (.time 1001, .time 61000)) ∧
      JsDate.time 61000 ≠ JsDate.time (1001 + 1 * 60000) := by
  constructor <;> decide

/-- The record of a create request answered 201: `createdAt` is the clock reading at
`new Date()`, `expiresAt` the clock reading at `Date.now()` plus 60000 ms times the
number the validity coerces to. -/
theorem createHandler_expiry {cfg : Config} {fuel : Nat} {s s' : Store} {body : CreateBody}
    {env : CreateEnv} {reply : Reply}
    (h : createHandler cfg fuel s body env = some (reply, s'))
    (hst : reply.status = some 201) :
    ∃ code urlData validity,
      chooseShortcode cfg fuel s body env = some (.inr code) ∧
      s'.urlStore.get code = some urlData ∧
      toNumber (defaultValidity body.validity) = some validity ∧
      urlData.createdAt = .time env.nowCreated ∧
      urlData.expiresAt = .time (env.nowExpiry + validity * 60000) := by
  obtain ⟨code, expiry, hch, hiso, _, hs'⟩ := createHandler_created h hst
  have hget : s'.urlStore.get code = some (buildUrlData body env code) := by
    rw [hs']; exact JsMap.get_set_self _ _ _
  have hexp : (buildUrlData body env code).expiresAt =
      newDate ((toNumber (defaultValidity body.validity)).map
        (fun v => env.nowExpiry + v * 60 * 1000)) := rfl
  cases hn : toNumber (defaultValidity body.validity) with
  | none =>
    rw [hexp, hn] at hiso
    cases hiso
  | some validity =>
    have hdate : (buildUrlData body env code).expiresAt =
        .time (env.nowExpiry + validity * 60000) := by
      rw [hexp, hn] at hiso ⊢
      simp only [Option.map_some', newDate] at hiso ⊢
      split_ifs at hiso ⊢ with hle
      · congr 1
        omega
      · cases hiso
    exact ⟨code, buildUrlData body env code, validity, hch, hget, rfl, rfl, hdate⟩

/-- C6 (amended). For every create request answered 201 whose validity is absent or
an integer number, the stored record has `createdAt` equal to the clock reading at
`new Date()` and `expiresAt` equal to the clock reading at `Date.now()` plus
`validity * 60000` ms, where `validity` is the request's validity, or 30 when the
request omits it.  So `expiresAt = createdAt + validity * 60000` holds when the two
clock readings are equal. -/
theorem expiry_arithmetic (cfg : Config) (fuel : Nat) (s s' : Store) (body : CreateBody)
    (env : CreateEnv) (reply : Reply) (validity : Int)
    (h : createHandler cfg fuel s body env = some (reply, s'))
    (hst : reply.status = some 201)
    (hval : (body.validity = .undefined ∧ validity = 30) ∨ body.validity = .num validity) :
    ∃ code urlData,
      chooseShortcode cfg fuel s body env = some (.inr code) ∧
      s'.urlStore.get code = some urlData ∧
      urlData.createdAt = .time env.nowCreated ∧
      urlData.expiresAt = .time (env.nowExpiry + validity * 60000) ∧
      (env.nowExpiry = env.nowCreated →
        urlData.expiresAt = .time (env.nowCreated + validity * 60000)) := by
  obtain ⟨code, urlData, v, hch, hget, hn, hcreated, hexpires⟩ := createHandler_expiry h hst
  have hv : v = validity := by
    rcases hval with ⟨hu, h30⟩ | hnum
    · rw [hu] at hn
      simp only [defaultValidity, toNumber, if_true, Option.some.injEq] at hn
      rw [h30]; exact hn.symm
    · rw [hnum] at hn
      simp only [defaultValidity] at hn
      rw [if_neg (by simp)] at hn
      simp only [toNumber, Option.some.injEq] at hn
      exact hn.symm
  subst hv
  exact ⟨code, urlData, hch, hget, hcreated, hexpires, fun heq => by rw [hexpires, heq]⟩

theorem expiry_arithmetic_witness :
    createHandler sampleConfig 0 Store.empty sampleBody sampleCreateEnv =
        some (.json 201 (.created "http://localhost:3001/abc" ⟨61000⟩), sampleStore) ∧
      sampleBody.validity = .num 1 ∧
      ∃ code urlData,
        chooseShortcode sampleConfig 0 Store.empty sampleBody sampleCreateEnv =
          some (.inr code) ∧
        sampleStore.urlStore.get code = some urlData ∧
        urlData.createdAt = .time sampleCreateEnv.nowCreated ∧
        urlData.expiresAt = .time (sampleCreateEnv.nowExpiry + 1 * 60000) ∧
        (sampleCreateEnv.nowExpiry = sampleCreateEnv.nowCreated →
          urlData.expiresAt = .time (sampleCreateEnv.nowCreated + 1 * 60000)) :=
  ⟨by decide, rfl,
    expiry_arithmetic sampleConfig 0 Store.empty sampleStore sampleBody sampleCreateEnv
      (.json 201 (.created "http://localhost:3001/abc" ⟨61000⟩)) 1 (by decide) rfl
      (Or.inr rfl)⟩

/-- On an integer validity the exact fraction-dropping expiry is the one the handler
computes; on the validity `1 / 100000` of a minute (0.6 ms) with the clock at
1000 ms it is 1000 ms, the clock reading itself, and not 1000.6 ms. -/
theorem expiryTimeFraction_spec :
    (∀ now n : Int, expiryTimeFraction now n 1 = expiryTime now (.num n)) ∧
      expiryTimeFraction 1000 1 100000 = .time 1000 := by
  constructor
  · intro now n
    simp [expiryTimeFraction, timeClip, expiryTime, toNumber, newDate, Int.tdiv_one]
  · decide

/-! ## Click accumulation -/

/-- One handled request extends the click list of a registered shortcode by the
event that request appended for it, if any. -/
theorem handle_clicks {cfg : Config} {fuel : Nat} {s s' : Store} {req : Request}
    {reply : Reply} (h : handle cfg fuel s req = some (reply, s')) (c : String)
    (hpresent : s.urlStore.has (.str c) = true) :
    s'.clicks (.str c) =
      s.clicks (.str c) ++ (Step.click c ⟨s, fuel, req, reply, s'⟩).toList := by
  cases req with
  | create body env =>
    simp only [Step.click, Option.toList, List.append_nil]
    rcases createHandler_cases h with ⟨_, hs⟩ | ⟨code, hc, hs⟩
    · rw [hs]
    · have h2 := storeAndReply_store cfg s body env code
      rw [hs] at h2
      simp only [] at h2
      have hne : JVal.str c ≠ code := by
        intro heq
        rw [heq, (chooseShortcode_inr hc).1] at hpresent
        cases hpresent
      rw [h2]
      simp only [Store.clicks]
      rw [JsMap.get_set_ne _ _ hne]
  | stats shortcode now =>
    simp only [handle, Option.some.injEq] at h
    have := statsHandler_store cfg s shortcode now
    rw [h] at this
    simp only [] at this
    simp only [Step.click, Option.toList, List.append_nil]
    rw [this]
  | redirect shortcode env =>
    simp only [handle, Option.some.injEq] at h
    rcases redirectHandler_cases s shortcode env with ⟨_, hr⟩ | ⟨_, _, _, hr⟩ | ⟨u, _, _, hr⟩
    · rw [h] at hr
      cases hr
      simp [Step.click, Reply.status]
    · rw [h] at hr
      cases hr
      simp [Step.click, Reply.status]
    · rw [h] at hr
      cases hr
      by_cases hsc : shortcode = c
      · subst hsc
        simp [Step.click, Reply.status, Store.clicks, JsMap.get_set_self]
      · have hne : JVal.str c ≠ JVal.str shortcode := by
          intro heq
          cases heq
          exact hsc rfl
        simp only [Step.click, hsc, false_and, if_false, Option.toList, List.append_nil,
          Store.clicks]
        rw [JsMap.get_set_ne _ _ hne]

/-- Along a run that starts in a store where `c` is registered, the click list of
`c` grows by exactly the events of the redirects for `c` answered 302, in order. -/
theorem run_clicks {cfg : Config} {reqs : List (Nat × Request)} {s : Store}
    {steps : List Step} (h : run cfg s reqs = some steps) (c : String)
    (hpresent : s.urlStore.has (.str c) = true) :
    (finalStore s steps).clicks (.str c) =
      s.clicks (.str c) ++ steps.filterMap (Step.click c) := by
  induction reqs generalizing s steps with
  | nil =>
    simp only [run, Option.some.injEq] at h
    subst h
    simp [finalStore]
  | cons fr rest ih =>
    obtain ⟨fuel, req⟩ := fr
    simp only [run] at h
    cases hh : handle cfg fuel s req with
    | none => simp [hh] at h
    | some rs =>
      obtain ⟨reply, s'⟩ := rs
      rw [hh] at h
      simp only [] at h
      cases hr : run cfg s' rest with
      | none => simp [hr] at h
      | some steps' =>
        rw [hr] at h
        simp only [Option.map_some', Option.some.injEq] at h
        subst h
        have hstep := handle_clicks hh c hpresent
        have ih' := ih hr (handle_has_urlStore hh hpresent)
        simp only [finalStore]
        rw [ih', hstep]
        cases hc : Step.click c ⟨s, fuel, req, reply, s'⟩ with
        | none => rw [List.filterMap_cons_none hc]; simp
        | some info => rw [List.filterMap_cons_some hc]; simp

/-- C7. Let `c` be registered in store `s` with click list `s.clicks c`.  After any
sequence of requests handled from `s`, the click list of `c` is the old list
followed by the events built by the redirect requests for `c` that were answered
302, in the order those requests were handled; so it has `k + N` events when the
old list had `k` and `N` such redirects were handled. -/
theorem click_accumulation (cfg : Config) (reqs : List (Nat × Request)) (s : Store)
    (steps : List Step) (c : String) (h : run cfg s reqs = some steps)
    (hpresent : s.urlStore.has (.str c) = true) :
    (finalStore s steps).clicks (.str c) =
        s.clicks (.str c) ++ steps.filterMap (Step.click c) ∧
      ((finalStore s steps).clicks (.str c)).length =
        (s.clicks (.str c)).length + (steps.filterMap (Step.click c)).length := by
  have := run_clicks h c hpresent
  exact ⟨this, by rw [this, List.length_append]⟩

theorem click_accumulation_witness :
    run sampleConfig sampleStore clickRequests = some clickSteps ∧
      sampleStore.urlStore.has (.str "abc") = true ∧
      clickSteps.filterMap (Step.click "abc") = [sampleClick, sampleClick] ∧
      (finalStore sampleStore clickSteps).clicks (.str "abc") =
        sampleStore.clicks (.str "abc") ++ clickSteps.filterMap (Step.click "abc") ∧
      ((finalStore sampleStore clickSteps).clicks (.str "abc")).length =
        (sampleStore.clicks (.str "abc")).length +
          (clickSteps.filterMap (Step.click "abc")).length :=
  ⟨rfl, by decide, by decide,
    click_accumulation sampleConfig clickRequests sampleStore clickSteps "abc" rfl
      (by decide)⟩

/-! ## Redirect: side effect and frame -/

/-- C8. For every store and shortcode `c`, the redirect handler changes the click
ledger exactly when it answers 302.  In that case the target is the stored
record's `originalUrl`, the click list of `c` is the old list with the one new
event at its end, the ledger entry of every other key is as before and the
registry is unchanged.  When the answer is 404 or 410 the whole store is
unchanged. -/
theorem redirect_frame (s : Store) (c : String) (env : RedirectEnv) :
    ((redirectHandler s c env).2.clickData ≠ s.clickData ↔
        (redirectHandler s c env).1.status = some 302) ∧
      ((redirectHandler s c env).1.status = some 302 →
        ∃ urlData, s.urlStore.get (.str c) = some urlData ∧
          (redirectHandler s c env).1 = .redirect 302 urlData.originalUrl ∧
          (redirectHandler s c env).2.clicks (.str c) =
            s.clicks (.str c) ++ [buildClickInfo env] ∧
          (∀ key, key ≠ .str c →
            (redirectHandler s c env).2.clickData.get key = s.clickData.get key) ∧
          (redirectHandler s c env).2.urlStore = s.urlStore) ∧
      ((redirectHandler s c env).1.status = some 404 ∨
        (redirectHandler s c env).1.status = some 410 →
          (redirectHandler s c env).2 = s) := by
  rcases redirectHandler_cases s c env with ⟨_, hr⟩ | ⟨_, _, _, hr⟩ | ⟨u, hget, _, hr⟩
  · rw [hr]
    simp [Reply.status]
  · rw [hr]
    simp [Reply.status]
  · rw [hr]
    have hclicks : (JsMap.set s.clickData (.str c)
        (s.clicks (.str c) ++ [buildClickInfo env])).get (.str c) =
          some (s.clicks (.str c) ++ [buildClickInfo env]) := JsMap.get_set_self _ _ _
    refine ⟨?_, ?_, ?_⟩
    · simp only [Reply.status, iff_true]
      intro heq
      have heq' : JsMap.set s.clickData (.str c)
          (s.clicks (.str c) ++ [buildClickInfo env]) = s.clickData := heq
      rw [heq'] at hclicks
      have h2 : s.clicks (.str c) = s.clicks (.str c) ++ [buildClickInfo env] :=
        calc s.clicks (.str c) = (s.clickData.get (.str c)).getD [] := rfl
          _ = (some (s.clicks (.str c) ++ [buildClickInfo env])).getD [] := by rw [hclicks]
          _ = s.clicks (.str c) ++ [buildClickInfo env] := rfl
      have hlen := congrArg List.length h2
      simp at hlen
    · intro _
      refine ⟨u, hget, rfl, ?_, ?_, rfl⟩
      · show ((JsMap.set s.clickData (.str c)
            (s.clicks (.str c) ++ [buildClickInfo env])).get (.str c)).getD [] = _
        rw [hclicks]
        rfl
      · intro key hkey
        exact JsMap.get_set_ne _ _ hkey
    · intro h
      simp [Reply.status] at h

/-! ## Statistics composition -/

/-- C9. Whenever the stats handler answers 200 for shortcode `c`, the reply carries
the stored record's `originalUrl`, the ISO strings of its `createdAt` and
`expiresAt`, the click list of `c` in append order as `clickData` and the length of
that list as `totalClicks`, and the store is returned unchanged. -/
theorem stats_composition (cfg : Config) (s : Store) (c : String) (now : Int)
    (h : (statsHandler cfg s c now).1.status = some 200) :
    ∃ urlData expiry creationDate,
      s.urlStore.get (.str c) = some urlData ∧
      toISOString urlData.expiresAt = some expiry ∧
      toISOString urlData.createdAt = some creationDate ∧
      statsHandler cfg s c now =
        (.json 200 (.stats (shortLink cfg (.str c)) expiry urlData.originalUrl creationDate
          (s.clicks (.str c)).length (s.clicks (.str c))), s) := by
  rcases statsHandler_cases cfg s c now with ⟨_, hr⟩ | ⟨_, _, _, hr⟩ |
    ⟨u, expiry, creationDate, hget, _, he, hc, hr⟩ | ⟨_, _, _, _, hr⟩
  · rw [hr] at h; simp [Reply.status] at h
  · rw [hr] at h; simp [Reply.status] at h
  · exact ⟨u, expiry, creationDate, hget, he, hc, hr⟩
  · rw [hr] at h; simp [Reply.status] at h

theorem stats_composition_witness :
    (statsHandler sampleConfig sampleStore "abc" 5000).1.status = some 200 ∧
      ∃ urlData expiry creationDate,
        sampleStore.urlStore.get (.str "abc") = some urlData ∧
        toISOString urlData.expiresAt = some expiry ∧
        toISOString urlData.createdAt = some creationDate ∧
        statsHandler sampleConfig sampleStore "abc" 5000 =
          (.json 200 (.stats (shortLink sampleConfig (.str "abc")) expiry urlData.originalUrl
            creationDate (sampleStore.clicks (.str "abc")).length
            (sampleStore.clicks (.str "abc"))), sampleStore) :=
  ⟨by decide, stats_composition sampleConfig sampleStore "abc" 5000 (by decide)⟩

/-! ## Generated shortcodes -/

theorem chars_alphanumeric : chars.length = 62 ∧ ∀ ch ∈ chars.data, ch.isAlphanum = true := by
  constructor <;> decide

/-- A create request whose shortcode field is falsy and that is answered 201 stored
its record under a generated code: six characters of the alphabet, free before. -/
theorem generated_code_spec {cfg : Config} {fuel : Nat} {s s' : Store} {body : CreateBody}
    {env : CreateEnv} {reply : Reply}
    (hno : body.shortcode.truthy = false)
    (h : createHandler cfg fuel s body env = some (reply, s'))
    (hst : reply.status = some 201) :
    ∃ code : String, ∃ expiry : IsoString,
      code.length = 6 ∧ (∀ ch ∈ code.data, ch ∈ chars.data) ∧
      s.urlStore.has (.str code) = false ∧
      reply = .json 201 (.created (shortLink cfg (.str code)) expiry) ∧
      s'.urlStore = s.urlStore ++ [(.str code, buildUrlData body env (.str code))] := by
  obtain ⟨code, expiry, hch, _, hreply, hs'⟩ := createHandler_created h hst
  obtain ⟨hfree, _, _, hgen⟩ := chooseShortcode_inr hch
  obtain ⟨p, hp⟩ := hgen hno
  subst hp
  obtain ⟨hlen, hmem⟩ := generateShortcode_spec env.random p
  refine ⟨generateShortcode env.random p, expiry, hlen, hmem, hfree, hreply, ?_⟩
  rw [hs']
  exact JsMap.set_eq_append _ hfree

/-- C10. Whenever a create request that requests no shortcode is answered 201, for
any registry and any random draws in `[0, 1)`, the record is stored under a code of
exactly 6 characters, each from the 62-character alphabet `A-Z`, `a-z`, `0-9`, and
that code was not a key of the registry before the request. -/
theorem generated_shortcode (cfg : Config) (fuel : Nat) (s s' : Store) (body : CreateBody)
    (env : CreateEnv) (reply : Reply) (hno : body.shortcode = .undefined)
    (h : createHandler cfg fuel s body env = some (reply, s'))
    (hst : reply.status = some 201) :
    ∃ code : String,
      code.length = 6 ∧
      (∀ ch ∈ code.data, ch ∈ chars.data ∧ ch.isAlphanum = true) ∧
      s.urlStore.has (.str code) = false ∧
      s'.urlStore = s.urlStore ++ [(.str code, buildUrlData body env (.str code))] ∧
      s'.urlStore.get (.str code) = some (buildUrlData body env (.str code)) := by
  have hfalsy : body.shortcode.truthy = false := by rw [hno]; rfl
  obtain ⟨code, _, hlen, hmem, hfree, _, hs'⟩ := generated_code_spec hfalsy h hst
  refine ⟨code, hlen, fun ch hch => ⟨hmem ch hch, chars_alphanumeric.2 ch (hmem ch hch)⟩,
    hfree, hs', ?_⟩
  rw [hs', ← JsMap.set_eq_append _ hfree]
  exact JsMap.get_set_self _ _ _

theorem generated_shortcode_witness :
    plainBody.shortcode = .undefined ∧
      (createHandler sampleConfig 2 sampleStore plainBody sampleCreateEnv).map Prod.fst =
        some (.json 201 (.created "http://localhost:3001/AAAAAA" ⟨1801000⟩)) ∧
      ∃ code : String,
        code.length = 6 ∧
        (∀ ch ∈ code.data, ch ∈ chars.data ∧ ch.isAlphanum = true) ∧
        sampleStore.urlStore.has (.str code) = false ∧
        ((createHandler sampleConfig 2 sampleStore plainBody sampleCreateEnv).getD
            (.rejected, sampleStore)).2.urlStore =
          sampleStore.urlStore ++
            [(.str code, buildUrlData plainBody sampleCreateEnv (.str code))] ∧
        ((createHandler sampleConfig 2 sampleStore plainBody sampleCreateEnv).getD
            (.rejected, sampleStore)).2.urlStore.get (.str code) =
          some (buildUrlData plainBody sampleCreateEnv (.str code)) :=
  ⟨rfl, by decide,
    generated_shortcode sampleConfig 2 sampleStore _ plainBody sampleCreateEnv
      (.json 201 (.created "http://localhost:3001/AAAAAA" ⟨1801000⟩)) rfl (by decide) rfl⟩

/-! ## Record immutability -/

/-- A request only ever appends to the registry. -/
theorem handle_urlStore_append {cfg : Config} {fuel : Nat} {s s' : Store} {req : Request}
    {reply : Reply} (h : handle cfg fuel s req = some (reply, s')) :
    ∃ added, s'.urlStore = s.urlStore ++ added := by
  cases req with
  | create body env =>
    rcases createHandler_cases h with ⟨_, hs⟩ | ⟨code, hc, hs⟩
    · exact ⟨[], by rw [hs, List.append_nil]⟩
    · have h2 := storeAndReply_store cfg s body env code
      rw [hs] at h2
      simp only [] at h2
      refine ⟨[(code, buildUrlData body env code)], ?_⟩
      rw [h2]
      exact JsMap.set_eq_append _ (chooseShortcode_inr hc).1
  | stats shortcode now =>
    simp only [handle, Option.some.injEq] at h
    have := statsHandler_store cfg s shortcode now
    rw [h] at this
    simp only [] at this
    exact ⟨[], by rw [this, List.append_nil]⟩
  | redirect shortcode env =>
    simp only [handle, Option.some.injEq] at h
    have := redirectHandler_urlStore s shortcode env
    rw [h] at this
    simp only [] at this
    exact ⟨[], by rw [this, List.append_nil]⟩

/-- C11. For every store and every request (create, stats or redirect, whatever the
reply), the registry after the request is the registry before with entries
appended at most, and every shortcode that was a key before is still a key and
maps to the identical record: no record is mutated, overwritten or deleted. -/
theorem record_immutability (cfg : Config) (fuel : Nat) (s s' : Store) (req : Request)
    (reply : Reply) (h : handle cfg fuel s req = some (reply, s')) :
    (∃ added, s'.urlStore = s.urlStore ++ added) ∧
      (∀ key, s.urlStore.has key = true → s'.urlStore.has key = true) ∧
      ∀ key urlData, s.urlStore.get key = some urlData →
        s'.urlStore.get key = some urlData :=
  ⟨handle_urlStore_append h, fun _ hk => handle_has_urlStore h hk,
    fun _ _ hg => handle_get_urlStore h hg⟩

theorem record_immutability_witness :
    handle sampleConfig 1 sampleStore (.create plainBody sampleCreateEnv) =
        some (.json 201 (.created "http://localhost:3001/AAAAAA" ⟨1801000⟩), sampleStore2) ∧
      (∃ added, sampleStore2.urlStore = sampleStore.urlStore ++ added) ∧
      (∀ key, sampleStore.urlStore.has key = true → sampleStore2.urlStore.has key = true) ∧
      ∀ key urlData, sampleStore.urlStore.get key = some urlData →
        sampleStore2.urlStore.get key = some urlData :=
  ⟨by decide,
    record_immutability sampleConfig 1 sampleStore sampleStore2
      (.create plainBody sampleCreateEnv)
      (.json 201 (.created "http://localhost:3001/AAAAAA" ⟨1801000⟩)) (by decide)⟩

/-! ## Ledger seeding -/

theorem handle_sameKeys {cfg : Config} {fuel : Nat} {s s' : Store} {req : Request}
    {reply : Reply} (h : handle cfg fuel s req = some (reply, s')) (hs : SameKeys s) :
    SameKeys s' := by
  cases req with
  | create body env =>
    rcases createHandler_cases h with ⟨_, hs'⟩ | ⟨code, hc, hs'⟩
    · rw [hs']; exact hs
    · have h2 := storeAndReply_store cfg s body env code
      rw [hs'] at h2
      simp only [] at h2
      intro key
      rw [h2]
      simp only [JsMap.has_set]
      rw [hs key]
  | stats shortcode now =>
    simp only [handle, Option.some.injEq] at h
    have := statsHandler_store cfg s shortcode now
    rw [h] at this
    simp only [] at this
    rw [this]; exact hs
  | redirect shortcode env =>
    simp only [handle, Option.some.injEq] at h
    rcases redirectHandler_cases s shortcode env with ⟨_, hr⟩ | ⟨_, _, _, hr⟩ | ⟨u, hget, _, hr⟩
    · rw [h] at hr; cases hr; exact hs
    · rw [h] at hr; cases hr; exact hs
    · rw [h] at hr
      cases hr
      intro key
      simp only [JsMap.has_set]
      rw [← hs key]
      by_cases hk : key = .str shortcode
      · subst hk
        simp [JsMap.has_eq_isSome_get, hget]
      · simp [hk]

theorem Reachable.sameKeys {cfg : Config} {s : Store} (h : Reachable cfg s) : SameKeys s := by
  unfold Reachable at h
  induction h with
  | refl => intro key; rfl
  | step _ hstep ih => exact handle_sameKeys hstep ih

/-- C12. In every store reachable from the empty one the registry and the click
ledger have exactly the same keys, so every registered shortcode has a ledger
entry; and a create request answered 201 leaves the new shortcode registered with
the empty click list as its ledger entry. -/
theorem ledger_seeding (cfg : Config) (s : Store) (hs : Reachable cfg s) :
    (∀ key, s.urlStore.has key = s.clickData.has key) ∧
      (∀ key, s.urlStore.has key = true → ∃ clicks, s.clickData.get key = some clicks) ∧
      ∀ fuel body env reply s', createHandler cfg fuel s body env = some (reply, s') →
        reply.status = some 201 →
        ∃ code, chooseShortcode cfg fuel s body env = some (.inr code) ∧
          s'.urlStore.has code = true ∧ s'.clickData.get code = some [] ∧
          ∀ key, s'.urlStore.has key = s'.clickData.has key := by
  have hsame := hs.sameKeys
  refine ⟨hsame, ?_, ?_⟩
  · intro key hkey
    rw [hsame key, JsMap.has_eq_isSome_get] at hkey
    cases hg : s.clickData.get key with
    | none => rw [hg] at hkey; cases hkey
    | some clicks => exact ⟨clicks, rfl⟩
  · intro fuel body env reply s' h hst
    obtain ⟨code, _, hch, _, _, hs'⟩ := createHandler_created h hst
    refine ⟨code, hch, ?_, ?_, ?_⟩
    · rw [hs']
      simp [JsMap.has_set]
    · rw [hs']
      exact JsMap.get_set_self _ _ _
    · exact @handle_sameKeys cfg fuel s s' (.create body env) reply h hsame

theorem ledger_seeding_witness :
    Reachable sampleConfig sampleStore ∧
      (∀ key, sampleStore.urlStore.has key = sampleStore.clickData.has key) ∧
      (∀ key, sampleStore.urlStore.has key = true →
        ∃ clicks, sampleStore.clickData.get key = some clicks) ∧
      ∀ fuel body env reply s',
        createHandler sampleConfig fuel sampleStore body env = some (reply, s') →
        reply.status = some 201 →
        ∃ code, chooseShortcode sampleConfig fuel sampleStore body env = some (.inr code) ∧
          s'.urlStore.has code = true ∧ s'.clickData.get code = some [] ∧
          ∀ key, s'.urlStore.has key = s'.clickData.has key :=
  ⟨sampleStore_reachable, ledger_seeding sampleConfig sampleStore sampleStore_reachable⟩

/-! ## Shortcode format -/

/-- C13 (as stated, refuted). The create request `{url, shortcode: "a"}` sent to the
backend in the empty store is answered 201 and leaves a record whose shortcode
`"a"` has one character. -/
theorem short_code_accepted :
    (createHandler sampleConfig 0 Store.empty shortBody sampleCreateEnv).map
        (fun r => (r.1.status, r.2.urlStore.map (fun e => (e.1, e.2.shortcode)))) =
      some (some 201, [(.str "a", .str "a")]) ∧ ("a" : String).length = 1 := by
  constructor <;> decide

theorem handle_formatOk {cfg : Config} {fuel : Nat} {s s' : Store} {req : Request}
    {reply : Reply} (h : handle cfg fuel s req = some (reply, s'))
    (hreq : req.prevalidated) (hs : FormatOk s) : FormatOk s' := by
  cases req with
  | create body env =>
    rcases createHandler_cases h with ⟨_, hs'⟩ | ⟨code, hc, hs'⟩
    · rw [hs']; exact hs
    · have h2 := storeAndReply_store cfg s body env code
      rw [hs'] at h2
      simp only [] at h2
      obtain ⟨hfree, _, hreqd, hgen⟩ := chooseShortcode_inr hc
      intro key urlData hmem
      rw [h2] at hmem
      simp only [] at hmem
      rw [JsMap.set_eq_append _ hfree] at hmem
      rcases List.mem_append.mp hmem with hold | hnew
      · exact hs key urlData hold
      · simp only [List.mem_singleton, Prod.mk.injEq] at hnew
        obtain ⟨hk, hu⟩ := hnew
        subst hk hu
        cases ht : body.shortcode.truthy with
        | true =>
          obtain ⟨c, hc0, hvalid⟩ := hreq ht
          have hcode : key = .str c := by rw [hreqd ht, hc0]
          refine ⟨c, hcode, hcode, ?_⟩
          have hne : c ≠ "" := by
            intro he
            rw [hc0, he] at ht
            cases ht
          simp only [isValidShortcode, if_neg hne, Bool.and_eq_true, decide_eq_true_eq,
            List.all_eq_true] at hvalid
          exact ⟨hvalid.1.2, hvalid.2, hvalid.1.1⟩
        | false =>
          obtain ⟨p, hp⟩ := hgen ht
          obtain ⟨hlen, hmem'⟩ := generateShortcode_spec env.random p
          refine ⟨_, hp, hp, ?_, ?_, ?_⟩
          · rw [hlen]; decide
          · rw [hlen]; decide
          · intro ch hch
            exact chars_alphanumeric.2 ch (hmem' ch hch)
  | stats shortcode now =>
    simp only [handle, Option.some.injEq] at h
    have := statsHandler_store cfg s shortcode now
    rw [h] at this
    simp only [] at this
    rw [this]; exact hs
  | redirect shortcode env =>
    simp only [handle, Option.some.injEq] at h
    have := redirectHandler_urlStore s shortcode env
    rw [h] at this
    simp only [] at this
    intro key urlData hmem
    rw [this] at hmem
    exact hs key urlData hmem

theorem run_formatOk {cfg : Config} {reqs : List (Nat × Request)} {s : Store}
    {steps : List Step} (h : run cfg s reqs = some steps)
    (hreqs : ∀ fr ∈ reqs, fr.2.prevalidated) (hs : FormatOk s) :
    FormatOk (finalStore s steps) := by
  induction reqs generalizing s steps with
  | nil =>
    simp only [run, Option.some.injEq] at h
    subst h
    exact hs
  | cons fr rest ih =>
    obtain ⟨fuel, req⟩ := fr
    simp only [run] at h
    cases hh : handle cfg fuel s req with
    | none => simp [hh] at h
    | some rs =>
      obtain ⟨reply, s'⟩ := rs
      rw [hh] at h
      simp only [] at h
      cases hr : run cfg s' rest with
      | none => simp [hr] at h
      | some steps' =>
        rw [hr] at h
        simp only [Option.map_some', Option.some.injEq] at h
        subst h
        simp only [finalStore]
        exact ih hr (fun fr hfr => hreqs fr (List.mem_cons_of_mem _ hfr))
          (handle_formatOk hh (hreqs (fuel, req) (List.mem_cons_self _ _)) hs)

/-- C13 (amended). The backend stores a requested shortcode as it is and generates
6-character alphanumeric ones.  So in every state reached from the empty store by
requests whose requested shortcode, if any, passed the frontend's
`isValidShortcode`, every record of the registry has, and is stored under, a
shortcode of 3 to 20 alphanumeric characters. -/
theorem shortcode_format (cfg : Config) (reqs : List (Nat × Request)) (steps : List Step)
    (h : run cfg Store.empty reqs = some steps)
    (hreqs : ∀ fr ∈ reqs, fr.2.prevalidated) :
    ∀ key urlData, (key, urlData) ∈ (finalStore Store.empty steps).urlStore →
      ∃ c, key = .str c ∧ urlData.shortcode = .str c ∧ WellFormedCode c :=
  run_formatOk h hreqs (fun _ _ hmem => by simp [Store.empty] at hmem)

theorem shortcode_format_witness :
    run sampleConfig Store.empty sampleRequests = some sampleSteps ∧
      (∀ fr ∈ sampleRequests, fr.2.prevalidated) ∧
      (finalStore Store.empty sampleSteps).urlStore.keys = [.str "abc", .str "AAAAAA"] ∧
      ∀ key urlData, (key, urlData) ∈ (finalStore Store.empty sampleSteps).urlStore →
        ∃ c, key = .str c ∧ urlData.shortcode = .str c ∧ WellFormedCode c :=
  have hreqs : ∀ fr ∈ sampleRequests, fr.2.prevalidated := by
    intro fr hfr
    simp only [sampleRequests, List.mem_cons, List.mem_singleton, List.not_mem_nil,
      or_false] at hfr
    rcases hfr with rfl | rfl | rfl
    · exact fun _ => ⟨"abc", rfl, by decide⟩
    · exact fun _ => ⟨"abc", rfl, by decide⟩
    · intro ht; exact absurd ht (by decide)
  ⟨rfl, hreqs, by decide,
    shortcode_format sampleConfig sampleRequests sampleSteps rfl hreqs⟩

/-! ## URL validation -/

/-- C14. A create request whose url is missing or otherwise falsy (empty string), or
does not parse, is answered 400 whatever its validity and requested shortcode are
and whatever the registry holds, so also when the requested shortcode exists; the
store is returned unchanged. -/
theorem invalid_url_rejected (cfg : Config) (fuel : Nat) (s : Store) (body : CreateBody)
    (env : CreateEnv) (h : body.url.truthy = false ∨ isValidUrl cfg body.url = false) :
    ∃ message, createHandler cfg fuel s body env = some (.json 400 (.error message), s) := by
  cases ht : body.url.truthy with
  | false =>
    refine ⟨"URL is required", ?_⟩
    unfold createHandler chooseShortcode
    simp only []
    rw [if_pos (by simp [ht])]
  | true =>
    have hv : isValidUrl cfg body.url = false := by
      rcases h with h | h
      · rw [ht] at h; cases h
      · exact h
    refine ⟨"Invalid URL format", ?_⟩
    unfold createHandler chooseShortcode
    simp only []
    rw [if_neg (by simp [ht]), if_pos (by simp [hv])]

theorem invalid_url_rejected_witness :
    (noUrlBody.url.truthy = false ∨ isValidUrl sampleConfig noUrlBody.url = false) ∧
      sampleStore.urlStore.has noUrlBody.shortcode = true ∧
      ∃ message, createHandler sampleConfig 0 sampleStore noUrlBody sampleCreateEnv =
        some (.json 400 (.error message), sampleStore) :=
  ⟨Or.inl rfl, by decide,
    invalid_url_rejected sampleConfig 0 sampleStore noUrlBody sampleCreateEnv (Or.inl rfl)⟩

/-! ## Termination of shortcode generation -/

/-- When the loop returns a code, that code is the first free one among the
attempts, and the loop made fewer iterations than its fuel. -/
theorem generateUntilFree_first {α : Type} (urlStore : JsMap α) (random : Nat → Draw)
    (fuel pos : Nat) (c : String) (h : generateUntilFree urlStore random fuel pos = some c) :
    ∃ j, j < fuel ∧ c = generateShortcode random (pos + 6 * j) ∧
      urlStore.has (.str c) = false ∧
      ∀ i, i < j → urlStore.has (.str (generateShortcode random (pos + 6 * i))) = true := by
  induction fuel generalizing pos with
  | zero => simp [generateUntilFree] at h
  | succ fuel ih =>
    simp only [generateUntilFree] at h
    by_cases hhas : urlStore.has (.str (generateShortcode random pos)) = true
    · rw [if_pos hhas] at h
      obtain ⟨j, hj, hc, hfree, hbefore⟩ := ih (pos + 6) h
      refine ⟨j + 1, by omega, ?_, hfree, ?_⟩
      · rw [hc]; congr 1; omega
      · intro i hi
        cases i with
        | zero => simpa using hhas
        | succ i =>
          have := hbefore i (by omega)
          rw [show pos + 6 * (i + 1) = pos + 6 + 6 * i by omega]
          exact this
    · rw [if_neg hhas] at h
      have hc : generateShortcode random pos = c := Option.some.inj h
      subst hc
      exact ⟨0, by omega, by simp, by simpa using hhas, fun i hi => absurd hi (by omega)⟩

/-- When attempt `j` is free, `j + 1` iterations are enough for the loop to return. -/
theorem generateUntilFree_of_free {α : Type} (urlStore : JsMap α) (random : Nat → Draw)
    (j pos : Nat)
    (hfree : urlStore.has (.str (generateShortcode random (pos + 6 * j))) = false) :
    ∃ c, generateUntilFree urlStore random (j + 1) pos = some c := by
  induction j generalizing pos with
  | zero =>
    simp only [Nat.mul_zero, Nat.add_zero] at hfree
    exact ⟨generateShortcode random pos, by simp [generateUntilFree, hfree]⟩
  | succ j ih =>
    by_cases hhas : urlStore.has (.str (generateShortcode random pos)) = true
    · have hfree' : urlStore.has (.str (generateShortcode random (pos + 6 + 6 * j))) = false := by
        rw [show pos + 6 + 6 * j = pos + 6 * (j + 1) by omega]
        exact hfree
      obtain ⟨c, hc⟩ := ih (pos + 6) hfree'
      refine ⟨c, ?_⟩
      rw [generateUntilFree, if_pos hhas]
      exact hc
    · exact ⟨_, by rw [generateUntilFree, if_neg hhas]⟩

/-- C17 (as stated, refuted). With the code `"AAAAAA"` registered and a random source
whose every draw is `0`, every attempt yields `"AAAAAA"` again: no number of
iterations makes the loop return. -/
theorem generation_never_stops :
    createHandler sampleConfig 0 Store.empty takenBody sampleCreateEnv =
        some (.json 201 (.created "http://localhost:3001/AAAAAA" ⟨1801000⟩), takenStore) ∧
      takenStore.urlStore.has (.str "AAAAAA") = true ∧
      ¬ ∃ fuel c, generateUntilFree takenStore.urlStore zeroRandom fuel 0 = some c := by
  refine ⟨by decide, by decide, ?_⟩
  rintro ⟨fuel, c, h⟩
  obtain ⟨j, _, hc, hfree, _⟩ := generateUntilFree_first _ _ _ _ _ h
  have hgen : ∀ p, generateShortcode zeroRandom p = "AAAAAA" := by
    intro p
    simp only [generateShortcode, generateShortcodeLoop, zeroRandom]
    decide
  rw [hc, hgen] at hfree
  revert hfree
  decide

/-- C17 (amended). For every registry and every sequence of draws, the
generate-until-free loop stops (with some finite number of iterations) exactly
when one of the six-draw attempts of the sequence yields a code that is not in the
registry; it then returns the first such code, after finitely many draws. -/
theorem generation_stops_iff (urlStore : JsMap UrlData) (random : Nat → Draw) :
    ((∃ fuel c, generateUntilFree urlStore random fuel 0 = some c) ↔
        ∃ j, urlStore.has (.str (generateShortcode random (6 * j))) = false) ∧
      ∀ fuel c, generateUntilFree urlStore random fuel 0 = some c →
        urlStore.has (.str c) = false ∧
          ∃ j, c = generateShortcode random (6 * j) ∧
            ∀ i, i < j → urlStore.has (.str (generateShortcode random (6 * i))) = true := by
  have key : ∀ fuel c, generateUntilFree urlStore random fuel 0 = some c →
      urlStore.has (.str c) = false ∧
        ∃ j, c = generateShortcode random (6 * j) ∧
          ∀ i, i < j → urlStore.has (.str (generateShortcode random (6 * i))) = true := by
    intro fuel c h
    obtain ⟨j, _, hc, hfree, hbefore⟩ := generateUntilFree_first _ _ _ _ _ h
    refine ⟨hfree, j, by simpa using hc, fun i hi => ?_⟩
    simpa using hbefore i hi
  refine ⟨⟨?_, ?_⟩, key⟩
  · rintro ⟨fuel, c, h⟩
    obtain ⟨hfree, j, hc, _⟩ := key fuel c h
    exact ⟨j, by rw [← hc]; exact hfree⟩
  · rintro ⟨j, hj⟩
    obtain ⟨c, hc⟩ := generateUntilFree_of_free urlStore random j 0 (by simpa using hj)
    exact ⟨j + 1, c, hc⟩

theorem generation_stops_iff_witness :
    sampleStore.urlStore.has (.str (generateShortcode zeroRandom (6 * 0))) = false ∧
      ∃ fuel c, generateUntilFree sampleStore.urlStore zeroRandom fuel 0 = some c :=
  ⟨by decide, (generation_stops_iff sampleStore.urlStore zeroRandom).1.mpr ⟨0, by decide⟩⟩

/-! ## Failed creates -/

/-- A create request answered 400 or 409 returns the store unchanged. -/
theorem rejected_create_unchanged {cfg : Config} {fuel : Nat} {s s' : Store}
    {body : CreateBody} {env : CreateEnv} {reply : Reply}
    (h : createHandler cfg fuel s body env = some (reply, s'))
    (hst : reply.status = some 400 ∨ reply.status = some 409) : s' = s := by
  rcases createHandler_cases h with ⟨_, hs⟩ | ⟨code, _, hs⟩
  · exact hs
  · have h1 := storeAndReply_reply cfg s body env code
    rw [hs] at h1
    simp only [] at h1
    cases hiso : toISOString (buildUrlData body env code).expiresAt with
    | none =>
      rw [hiso] at h1
      simp only [] at h1
      rw [h1] at hst
      rcases hst with h4 | h4 <;> cases h4
    | some expiry =>
      rw [hiso] at h1
      simp only [] at h1
      rw [h1] at hst
      rcases hst with h4 | h4 <;> cases h4

/-- C18 (the failing input). The body `{url, validity: 1000000000000, shortcode: "abc"}`
handled in the empty store is answered 500, yet the store returned is not the
empty one: the record is registered and its click list seeded, and the same
shortcode requested again is answered 409. -/
theorem failed_create_not_atomic :
    createHandler sampleConfig 0 Store.empty hugeBody sampleCreateEnv =
        some (.json 500 (.error "Internal server error"), invalidDateStore) ∧
      invalidDateStore ≠ Store.empty ∧
      invalidDateStore.urlStore.has (.str "abc") = true ∧
      invalidDateStore.clickData.get (.str "abc") = some [] ∧
      createHandler sampleConfig 0 invalidDateStore sampleBody sampleCreateEnv =
        some (.json 409 (.error "Shortcode already exists"), invalidDateStore) := by
  refine ⟨?_, ?_, ?_, ?_, ?_⟩ <;> decide

/-! ## Empty requested shortcode -/

theorem validValidity_passes {body : CreateBody} (hval : body.validValidity) :
    ((defaultValidity body.validity).truthy &&
      (!(defaultValidity body.validity).isNumber || (defaultValidity body.validity).leZero))
        = false := by
  rcases hval with h | ⟨n, hn, h⟩
  · rw [h]; decide
  · rw [h]
    have h0 : n ≠ 0 := by omega
    have h1 : ¬ n ≤ 0 := by omega
    simp [defaultValidity, JVal.truthy, JVal.isNumber, JVal.leZero, h0, h1]

/-- With a falsy shortcode field the early replies are the 400 ones, and past the
validations the handler runs the generation loop. -/
theorem chooseShortcode_falsy {cfg : Config} {fuel : Nat} {s : Store} {body : CreateBody}
    {env : CreateEnv} (hno : body.shortcode.truthy = false) :
    (∀ reply, chooseShortcode cfg fuel s body env = some (.inl reply) →
        reply.status = some 400) ∧
      (body.validUrl cfg → body.validValidity →
        chooseShortcode cfg fuel s body env =
          (generateUntilFree s.urlStore env.random fuel 0).map (fun c => .inr (.str c))) := by
  constructor
  · intro reply h
    unfold chooseShortcode at h
    simp only [] at h
    split_ifs at h with h1 h2 h3 h4 h5
    · cases h; rfl
    · cases h; rfl
    · cases h; rfl
    · rw [hno] at h4; cases h4
    · cases h
    · cases hg : generateUntilFree s.urlStore env.random fuel 0 <;> simp [hg] at h
  · intro hurl hval
    obtain ⟨hu1, hu2⟩ := hurl
    unfold chooseShortcode
    simp only []
    rw [if_neg (by simp [hu1]), if_neg (by simp [hu2]),
      if_neg (by simp [validValidity_passes hval]), if_neg (by simp [hno])]

/-- C19. A create request whose shortcode field is the empty string is handled
exactly as the same request with the field omitted.  It is never answered 409 and
never changes what is stored under the empty key; when it is answered 201 the
record is stored under a generated code of six alphanumeric characters that was
free; and when the request is otherwise valid and some attempt of the random
source is free, the handler does answer 201. -/
theorem empty_shortcode_generated (cfg : Config) (fuel : Nat) (s : Store)
    (body : CreateBody) (env : CreateEnv) (hempty : body.shortcode = .str "") :
    createHandler cfg fuel s body env = createHandler cfg fuel s body.withoutShortcode env ∧
      (∀ reply s', createHandler cfg fuel s body env = some (reply, s') →
        reply.status ≠ some 409 ∧ s'.urlStore.get (.str "") = s.urlStore.get (.str "")) ∧
      (∀ reply s', createHandler cfg fuel s body env = some (reply, s') →
        reply.status = some 201 →
        ∃ code : String, code.length = 6 ∧ (∀ ch ∈ code.data, ch.isAlphanum = true) ∧
          s.urlStore.has (.str code) = false ∧
          s'.urlStore = s.urlStore ++ [(.str code, buildUrlData body env (.str code))]) ∧
      (body.otherwiseValid cfg env →
        ∀ j, s.urlStore.has (.str (generateShortcode env.random (6 * j))) = false →
          ∃ reply s', createHandler cfg (j + 1) s body env = some (reply, s') ∧
            reply.status = some 201) := by
  have hno : body.shortcode.truthy = false := by rw [hempty]; decide
  refine ⟨?_, ?_, ?_, ?_⟩
  · unfold createHandler chooseShortcode storeAndReply buildUrlData
      CreateBody.withoutShortcode
    simp only [hempty]
    rfl
  · intro reply s' h
    rcases createHandler_cases h with ⟨hc, hs⟩ | ⟨code, hc, hs⟩
    · have h400 := (chooseShortcode_falsy hno).1 reply hc
      refine ⟨by rw [h400]; decide, by rw [hs]⟩
    · have h1 := storeAndReply_reply cfg s body env code
      have h2 := storeAndReply_store cfg s body env code
      rw [hs] at h1 h2
      simp only [] at h1 h2
      obtain ⟨_, _, _, hgen⟩ := chooseShortcode_inr hc
      obtain ⟨p, hp⟩ := hgen hno
      constructor
      · rw [h1]
        cases toISOString (buildUrlData body env code).expiresAt <;> simp [Reply.status]
      · rw [h2]
        simp only []
        apply JsMap.get_set_ne
        intro heq
        rw [hp] at heq
        simp only [JVal.str.injEq] at heq
        exact generateShortcode_ne_empty env.random p heq.symm
  · intro reply s' h hst
    obtain ⟨code, _, hlen, hmem, hfree, _, hs'⟩ := generated_code_spec hno h hst
    exact ⟨code, hlen, fun ch hch => chars_alphanumeric.2 ch (hmem ch hch), hfree, hs'⟩
  · rintro ⟨hurl, hval, expiry, hiso⟩ j hj
    obtain ⟨c, hc⟩ := generateUntilFree_of_free s.urlStore env.random j 0 (by simpa using hj)
    have hch := (@chooseShortcode_falsy cfg (j + 1) s body env hno).2 hurl hval
    rw [hc] at hch
    simp only [Option.map_some'] at hch
    refine ⟨.json 201 (.created (shortLink cfg (.str c)) expiry),
      (storeAndReply cfg s body env (.str c)).2, ?_, rfl⟩
    have h1 := storeAndReply_reply cfg s body env (.str c)
    have hexp : (buildUrlData body env (.str c)).expiresAt =
        expiryTime env.nowExpiry (defaultValidity body.validity) := rfl
    rw [hexp, hiso] at h1
    simp only [] at h1
    unfold createHandler
    rw [hch]
    simp only []
    rw [← h1]

theorem empty_shortcode_generated_witness :
    emptyCodeBody.shortcode = .str "" ∧
      (createHandler sampleConfig 1 sampleStore emptyCodeBody sampleCreateEnv).map Prod.fst =
        some (.json 201 (.created "http://localhost:3001/AAAAAA" ⟨1801000⟩)) ∧
      createHandler sampleConfig 1 sampleStore emptyCodeBody sampleCreateEnv =
        createHandler sampleConfig 1 sampleStore emptyCodeBody.withoutShortcode
          sampleCreateEnv :=
  ⟨rfl, by decide,
    (empty_shortcode_generated sampleConfig 1 sampleStore emptyCodeBody sampleCreateEnv
      rfl).1⟩

/-! ## Log parameter validation -/

theorem includes_iff (xs : List String) (v : JVal) :
    includes xs v = true ↔ ∃ p ∈ xs, v = .str p := by
  cases v with
  | str s =>
    simp only [includes, List.contains, List.elem_iff, JVal.str.injEq]
    constructor
    · intro h; exact ⟨s, h, rfl⟩
    · rintro ⟨p, hp, rfl⟩; exact hp
  | undefined => simp [includes]
  | null => simp [includes]
  | bool b => simp [includes]
  | num n => simp [includes]

theorem packages_disjoint :
    (∀ p ∈ BACKEND_PACKAGES, p ∉ FRONTEND_PACKAGES) ∧
      (∀ p ∈ SHARED_PACKAGES, p ∉ FRONTEND_PACKAGES) ∧
      (∀ p ∈ SHARED_PACKAGES, p ∉ BACKEND_PACKAGES) := by
  refine ⟨?_, ?_, ?_⟩ <;> decide

theorem trim_length_eq_zero (m : String) : (trim m).length = 0 ↔ trim m = "" := by
  rw [String.ext_iff]
  show (trim m).data.length = 0 ↔ (trim m).data = []
  exact List.length_eq_zero

/-- The checks of `validateLogParams`, one by one. -/
theorem validateLogParams_ok_iff (stack level packageName message : JVal) :
    validateLogParams stack level packageName message = .ok () ↔
      includes VALID_STACKS stack = true ∧ includes VALID_LEVELS level = true ∧
        includes ALL_PACKAGES packageName = true ∧
        ¬ (stack = .str "backend" ∧ includes FRONTEND_PACKAGES packageName = true) ∧
        ¬ (stack = .str "frontend" ∧ includes BACKEND_PACKAGES packageName = true) ∧
        ∃ m, message = .str m ∧ trim m ≠ "" := by
  unfold validateLogParams
  by_cases h1 : includes VALID_STACKS stack = true
  swap
  · simp [h1]
  by_cases h2 : includes VALID_LEVELS level = true
  swap
  · simp [h1, h2]
  by_cases h3 : includes ALL_PACKAGES packageName = true
  swap
  · simp [h1, h2, h3]
  by_cases h4 : stack = .str "backend" ∧ includes FRONTEND_PACKAGES packageName = true
  · rw [if_neg (by simp [h1]), if_neg (by simp [h2]), if_neg (by simp [h3]),
      if_pos (by simp [h4.1, h4.2])]
    constructor
    · intro h; cases h
    · rintro ⟨_, _, _, h4n, _⟩; exact absurd h4 h4n
  have e4 : (decide (stack = JVal.str "backend") && includes FRONTEND_PACKAGES packageName)
      = false := by
    simpa using h4
  by_cases h5 : stack = .str "frontend" ∧ includes BACKEND_PACKAGES packageName = true
  · rw [if_neg (by simp [h1]), if_neg (by simp [h2]), if_neg (by simp [h3]),
      if_neg (by simp [e4]), if_pos (by simp [h5.1, h5.2])]
    constructor
    · intro h; cases h
    · rintro ⟨_, _, _, _, h5n, _⟩; exact absurd h5 h5n
  have e5 : (decide (stack = JVal.str "frontend") && includes BACKEND_PACKAGES packageName)
      = false := by
    simpa using h5
  rw [if_neg (by simp [h1]), if_neg (by simp [h2]), if_neg (by simp [h3]),
    if_neg (by simp [e4]), if_neg (by simp [e5])]
  cases message with
  | str m =>
    by_cases hm : (trim m).length = 0
    · have := (trim_length_eq_zero m).mp hm
      simp [hm, this, h1, h2, h3, h4, h5]
    · have : trim m ≠ "" := fun h => hm ((trim_length_eq_zero m).mpr h)
      simp [hm, this, h1, h2, h3, h4, h5]
  | undefined => simp
  | null => simp
  | bool b => simp
  | num n => simp

/-- C20. The function `validateLogParams` returns without throwing exactly for the
parameters the specification accepts: stack `backend` or `frontend`, level one of
`debug`, `info`, `warn`, `error`, `fatal`, message a string that is not empty after
trimming, and package a shared one (`auth`, `config`, `middleware`, `utils`) or one
of the given stack's own list; strings are compared character by character, so
matching is case-sensitive. -/
theorem validateLogParams_characterised (stack level packageName message : JVal) :
    validateLogParams stack level packageName message = .ok () ↔
      LogParamsAccepted stack level packageName message := by
  rw [validateLogParams_ok_iff]
  simp only [includes_iff]
  obtain ⟨dBF, dSF, dSB⟩ := packages_disjoint
  constructor
  · rintro ⟨⟨st, hst, hstack⟩, hlevel, ⟨p, hp, hpkg⟩, n4, n5, hm⟩
    have hstack' : stack = .str "backend" ∨ stack = .str "frontend" := by
      simp only [VALID_STACKS, List.mem_cons, List.mem_singleton, List.not_mem_nil,
        or_false] at hst
      rcases hst with rfl | rfl
      · exact Or.inl hstack
      · exact Or.inr hstack
    refine ⟨hstack', hlevel, hm, ?_⟩
    simp only [ALL_PACKAGES, List.mem_append] at hp
    rcases hp with (hB | hF) | hS
    · rcases hstack' with hb | hf
      · exact Or.inr (Or.inl ⟨hb, p, hB, hpkg⟩)
      · exact absurd ⟨hf, p, hB, hpkg⟩ n5
    · rcases hstack' with hb | hf
      · exact absurd ⟨hb, p, hF, hpkg⟩ n4
      · exact Or.inr (Or.inr ⟨hf, p, hF, hpkg⟩)
    · exact Or.inl ⟨p, hS, hpkg⟩
  · rintro ⟨hstack, hlevel, hm, hpkg⟩
    have hmemAll : ∃ p ∈ ALL_PACKAGES, packageName = .str p := by
      simp only [ALL_PACKAGES, List.mem_append]
      rcases hpkg with ⟨p, hS, h⟩ | ⟨_, p, hB, h⟩ | ⟨_, p, hF, h⟩
      · exact ⟨p, Or.inr hS, h⟩
      · exact ⟨p, Or.inl (Or.inl hB), h⟩
      · exact ⟨p, Or.inl (Or.inr hF), h⟩
    refine ⟨?_, hlevel, hmemAll, ?_, ?_, hm⟩
    · rcases hstack with h | h
      · exact ⟨"backend", by decide, h⟩
      · exact ⟨"frontend", by decide, h⟩
    · rintro ⟨hb, q, hqF, hq⟩
      rcases hpkg with ⟨p, hS, h⟩ | ⟨_, p, hB, h⟩ | ⟨hf, _⟩
      · rw [h] at hq; cases hq; exact dSF _ hS hqF
      · rw [h] at hq; cases hq; exact dBF _ hB hqF
      · rw [hb] at hf; exact absurd hf (by decide)
    · rintro ⟨hf, q, hqB, hq⟩
      rcases hpkg with ⟨p, hS, h⟩ | ⟨hb, _⟩ | ⟨_, p, hF, h⟩
      · rw [h] at hq; cases hq; exact dSB _ hS hqB
      · rw [hf] at hb; exact absurd hb (by decide)
      · rw [h] at hq; cases hq; exact dBF _ hqB hF

/-! ## Logging never throws -/

/-- C16. For every argument tuple and every way the post settles, `Log` returns and
never throws: it returns `null` when `validateLogParams` throws and when the post is
rejected (failure or timeout), and the response data when the post is fulfilled. -/
theorem log_never_throws {δ : Type} (post : LogData → List (String × String) → PostOutcome δ)
    (stack level packageName message authToken : JVal) :
    (∃ value, Log post stack level packageName message authToken = .returned value) ∧
      (validateLogParams stack level packageName message ≠ .ok () →
        Log post stack level packageName message authToken = .returned none) ∧
      (validateLogParams stack level packageName message = .ok () →
        (∀ err, post (buildLogData stack level packageName message) (logHeaders authToken) =
            .rejected err →
          Log post stack level packageName message authToken = .returned none) ∧
        (∀ data, post (buildLogData stack level packageName message) (logHeaders authToken) =
            .resolved data →
          Log post stack level packageName message authToken = .returned (some data))) := by
  refine ⟨?_, ?_, ?_⟩
  · unfold Log
    cases logTry post stack level packageName message authToken with
    | returned data => exact ⟨some data, rfl⟩
    | threw err => exact ⟨none, rfl⟩
  · intro hbad
    unfold Log logTry
    cases hv : validateLogParams stack level packageName message with
    | error err => rfl
    | ok u => cases u; exact absurd hv hbad
  · intro hok
    refine ⟨?_, ?_⟩
    · intro err hpost
      unfold Log logTry
      rw [hok]
      simp only []
      rw [hpost]
    · intro data hpost
      unfold Log logTry
      rw [hok]
      simp only []
      rw [hpost]

/-! ## Atomic allocation under interleaving -/

/-- A handler run alone from its start does what `createHandler` does. -/
theorem CreateTask.runAlone_start (cfg : Config) (fuel : Nat) (s : Store) (body : CreateBody)
    (env : CreateEnv) :
    (CreateTask.start fuel body env).runAlone cfg s =
      (createHandler cfg fuel s body env).map (fun rs => (.done rs.1, rs.2)) := by
  unfold CreateTask.runAlone createHandler
  simp only [CreateTask.resume]
  cases hc : chooseShortcode cfg fuel s body env with
  | none => rfl
  | some r =>
    cases r with
    | inl reply => rfl
    | inr code =>
      simp only [CreateTask.resume, storeAndReply]
      cases hiso : toISOString (buildUrlData body env code).expiresAt <;> rfl

/-- Past the validations, a request for a truthy shortcode is decided by one look
at the registry. -/
theorem chooseShortcode_requested {cfg : Config} {body : CreateBody} {env : CreateEnv}
    (fuel : Nat) (s : Store) (hv : body.otherwiseValid cfg env)
    (ht : body.shortcode.truthy = true) :
    chooseShortcode cfg fuel s body env =
      if s.urlStore.has body.shortcode then
        some (.inl (.json 409 (.error "Shortcode already exists")))
      else some (.inr body.shortcode) := by
  obtain ⟨⟨hu1, hu2⟩, hval, _⟩ := hv
  unfold chooseShortcode
  simp only []
  rw [if_neg (by simp [hu1]), if_neg (by simp [hu2]),
    if_neg (by simp [validValidity_passes hval]), if_pos ht]

theorem CreateTask.resume_won {cfg : Config} {c : JVal} {t : CreateTask} (s : Store)
    (h : t.Won cfg c) : ∃ t', t.resume cfg s = some (t', s) ∧ t'.Won cfg c := by
  rcases h with ⟨expiryTime, expiry, hiso, rfl⟩ | ⟨expiry, rfl⟩
  · refine ⟨.done (.json 201 (.created (shortLink cfg c) expiry)), ?_, Or.inr ⟨expiry, rfl⟩⟩
    simp only [CreateTask.resume, hiso]
  · exact ⟨_, rfl, Or.inr ⟨expiry, rfl⟩⟩

theorem CreateTask.resume_lost {cfg : Config} {t : CreateTask} (s : Store) (h : t.Lost) :
    ∃ t', t.resume cfg s = some (t', s) ∧ t'.Lost := by
  rcases h with rfl | rfl
  · exact ⟨_, rfl, Or.inr rfl⟩
  · exact ⟨_, rfl, Or.inr rfl⟩

/-- The first handler to run in a store where the shortcode is free stores its
record. -/
theorem CreateTask.resume_start_free {cfg : Config} {body : CreateBody} {env : CreateEnv}
    (fuel : Nat) {s : Store} (hv : body.otherwiseValid cfg env)
    (ht : body.shortcode.truthy = true) (hfree : s.urlStore.has body.shortcode = false) :
    ∃ t', (CreateTask.start fuel body env).resume cfg s =
        some (t', s.withRecord body.shortcode (buildUrlData body env body.shortcode)) ∧
      t'.Won cfg body.shortcode := by
  obtain ⟨expiry, hiso⟩ := hv.2.2
  refine ⟨.awaitCreated body.shortcode (buildUrlData body env body.shortcode).expiresAt, ?_,
    Or.inl ⟨_, expiry, hiso, rfl⟩⟩
  simp only [CreateTask.resume, chooseShortcode_requested fuel s hv ht, hfree]
  rfl

/-- A handler that starts when the shortcode is registered is about to send 409 and
leaves the store alone. -/
theorem CreateTask.resume_start_taken {cfg : Config} {body : CreateBody} {env : CreateEnv}
    (fuel : Nat) {s : Store} (hv : body.otherwiseValid cfg env)
    (ht : body.shortcode.truthy = true) (htaken : s.urlStore.has body.shortcode = true) :
    ∃ t', (CreateTask.start fuel body env).resume cfg s = some (t', s) ∧ t'.Lost := by
  refine ⟨.awaitReply (.json 409 (.error "Shortcode already exists")), ?_, Or.inl rfl⟩
  simp only [CreateTask.resume, chooseShortcode_requested fuel s hv ht, htaken]
  rfl

theorem Store.withRecord_has (s : Store) (code : JVal) (urlData : UrlData) :
    (s.withRecord code urlData).urlStore.has code = true := by
  simp [Store.withRecord, JsMap.has_set]

/-- Every resumption of either handler keeps the race fair. -/
theorem Race.step_fair {cfg : Config} {s : Store} {c : JVal} {fuelA fuelB : Nat}
    {bodyA bodyB : CreateBody} {envA envB : CreateEnv}
    (hc : c.truthy = true) (hA : bodyA.shortcode = c) (hB : bodyB.shortcode = c)
    (hfree : s.urlStore.has c = false)
    (hvA : bodyA.otherwiseValid cfg envA) (hvB : bodyB.otherwiseValid cfg envB)
    {r r' : Race} {pick : Bool}
    (hfair : r.Fair cfg s c (.start fuelA bodyA envA) (.start fuelB bodyB envB)
      (buildUrlData bodyA envA c) (buildUrlData bodyB envB c))
    (hstep : r.step cfg pick = some r') :
    r'.Fair cfg s c (.start fuelA bodyA envA) (.start fuelB bodyB envB)
      (buildUrlData bodyA envA c) (buildUrlData bodyB envB c) := by
  have htA : bodyA.shortcode.truthy = true := by rw [hA]; exact hc
  have htB : bodyB.shortcode.truthy = true := by rw [hB]; exact hc
  obtain ⟨store, first, second⟩ := r
  cases pick with
  | true =>
    simp only [Race.step, if_true] at hstep
    rcases hfair with ⟨h1, h2, h3⟩ | ⟨hw, h2, h3⟩ | ⟨hw, h1, h3⟩
    · simp only [] at h1 h2 h3
      subst h1 h2 h3
      obtain ⟨t', hres, hwon⟩ :=
        CreateTask.resume_start_free fuelA hvA htA (by rw [hA]; exact hfree)
      rw [hres] at hstep
      simp only [Option.map_some', Option.some.injEq] at hstep
      subst hstep
      rw [hA] at hwon
      exact Or.inr (Or.inl ⟨hwon, Or.inl rfl, by rw [hA]⟩)
    · simp only [] at hw h2 h3
      obtain ⟨t', hres, hwon⟩ := CreateTask.resume_won store hw
      rw [hres] at hstep
      simp only [Option.map_some', Option.some.injEq] at hstep
      subst hstep
      exact Or.inr (Or.inl ⟨hwon, h2, h3⟩)
    · simp only [] at hw h1 h3
      have htaken : store.urlStore.has bodyA.shortcode = true := by
        rw [h3, hA]; exact Store.withRecord_has _ _ _
      rcases h1 with h1 | h1
      · subst h1
        obtain ⟨t', hres, hlost⟩ := CreateTask.resume_start_taken fuelA hvA htA htaken
        rw [hres] at hstep
        simp only [Option.map_some', Option.some.injEq] at hstep
        subst hstep
        exact Or.inr (Or.inr ⟨hw, Or.inr hlost, h3⟩)
      · obtain ⟨t', hres, hlost⟩ := @CreateTask.resume_lost cfg _ store h1
        rw [hres] at hstep
        simp only [Option.map_some', Option.some.injEq] at hstep
        subst hstep
        exact Or.inr (Or.inr ⟨hw, Or.inr hlost, h3⟩)
  | false =>
    simp only [Race.step, Bool.false_eq_true, if_false] at hstep
    rcases hfair with ⟨h1, h2, h3⟩ | ⟨hw, h2, h3⟩ | ⟨hw, h1, h3⟩
    · simp only [] at h1 h2 h3
      subst h1 h2 h3
      obtain ⟨t', hres, hwon⟩ :=
        CreateTask.resume_start_free fuelB hvB htB (by rw [hB]; exact hfree)
      rw [hres] at hstep
      simp only [Option.map_some', Option.some.injEq] at hstep
      subst hstep
      rw [hB] at hwon
      exact Or.inr (Or.inr ⟨hwon, Or.inl rfl, by rw [hB]⟩)
    · simp only [] at hw h2 h3
      have htaken : store.urlStore.has bodyB.shortcode = true := by
        rw [h3, hB]; exact Store.withRecord_has _ _ _
      rcases h2 with h2 | h2
      · subst h2
        obtain ⟨t', hres, hlost⟩ := CreateTask.resume_start_taken fuelB hvB htB htaken
        rw [hres] at hstep
        simp only [Option.map_some', Option.some.injEq] at hstep
        subst hstep
        exact Or.inr (Or.inl ⟨hw, Or.inr hlost, h3⟩)
      · obtain ⟨t', hres, hlost⟩ := @CreateTask.resume_lost cfg _ store h2
        rw [hres] at hstep
        simp only [Option.map_some', Option.some.injEq] at hstep
        subst hstep
        exact Or.inr (Or.inl ⟨hw, Or.inr hlost, h3⟩)
    · simp only [] at hw h1 h3
      obtain ⟨t', hres, hwon⟩ := CreateTask.resume_won store hw
      rw [hres] at hstep
      simp only [Option.map_some', Option.some.injEq] at hstep
      subst hstep
      exact Or.inr (Or.inr ⟨hwon, h1, h3⟩)

theorem Race.run_fair {cfg : Config} {s : Store} {c : JVal} {fuelA fuelB : Nat}
    {bodyA bodyB : CreateBody} {envA envB : CreateEnv}
    (hc : c.truthy = true) (hA : bodyA.shortcode = c) (hB : bodyB.shortcode = c)
    (hfree : s.urlStore.has c = false)
    (hvA : bodyA.otherwiseValid cfg envA) (hvB : bodyB.otherwiseValid cfg envB)
    {schedule : List Bool} {r r' : Race}
    (hfair : r.Fair cfg s c (.start fuelA bodyA envA) (.start fuelB bodyB envB)
      (buildUrlData bodyA envA c) (buildUrlData bodyB envB c))
    (hrun : Race.run cfg r schedule = some r') :
    r'.Fair cfg s c (.start fuelA bodyA envA) (.start fuelB bodyB envB)
      (buildUrlData bodyA envA c) (buildUrlData bodyB envB c) := by
  induction schedule generalizing r with
  | nil =>
    simp only [Race.run, Option.some.injEq] at hrun
    subst hrun
    exact hfair
  | cons pick schedule ih =>
    simp only [Race.run] at hrun
    cases hs : r.step cfg pick with
    | none => rw [hs] at hrun; cases hrun
    | some r1 =>
      rw [hs] at hrun
      exact ih (Race.step_fair hc hA hB hfree hvA hvB hfair hs) hrun

/-- C15. Two create requests for the same explicit shortcode `c`, free in store `s`
and both otherwise valid, are handled concurrently, each handler running without
interruption between its `await` points (the collision check and the insertion lie
in the same uninterrupted run).  Under every schedule after which both replies have
been sent, exactly one request is answered 201 and the other 409, and the store
holds the record of the request answered 201. -/
theorem atomic_allocation (cfg : Config) (s : Store) (c : JVal) (fuelA fuelB : Nat)
    (bodyA bodyB : CreateBody) (envA envB : CreateEnv) (schedule : List Bool) (r : Race)
    (replyA replyB : Reply)
    (hc : c.truthy = true) (hA : bodyA.shortcode = c) (hB : bodyB.shortcode = c)
    (hfree : s.urlStore.has c = false)
    (hvA : bodyA.otherwiseValid cfg envA) (hvB : bodyB.otherwiseValid cfg envB)
    (hrun : Race.run cfg ⟨s, .start fuelA bodyA envA, .start fuelB bodyB envB⟩ schedule =
      some r)
    (hdoneA : r.first = .done replyA) (hdoneB : r.second = .done replyB) :
    (replyA.status = some 201 ∧ replyB.status = some 409 ∧
        r.store = s.withRecord c (buildUrlData bodyA envA c)) ∨
      (replyA.status = some 409 ∧ replyB.status = some 201 ∧
        r.store = s.withRecord c (buildUrlData bodyB envB c)) := by
  have hfair := Race.run_fair hc hA hB hfree hvA hvB (Or.inl ⟨rfl, rfl, rfl⟩) hrun
  have won_done : ∀ {t : CreateTask} {reply : Reply}, t.Won cfg c → t = .done reply →
      reply.status = some 201 := by
    intro t reply hw hd
    rcases hw with ⟨_, _, _, h⟩ | ⟨expiry, h⟩
    · rw [h] at hd; cases hd
    · rw [h] at hd; cases hd; rfl
  have lost_done : ∀ {t : CreateTask} {reply : Reply}, t.Lost → t = .done reply →
      reply.status = some 409 := by
    intro t reply hl hd
    rcases hl with h | h
    · rw [h] at hd; cases hd
    · rw [h] at hd; cases hd; rfl
  rcases hfair with ⟨h1, _, _⟩ | ⟨hw, h2, h3⟩ | ⟨hw, h1, h3⟩
  · rw [h1] at hdoneA; cases hdoneA
  · refine Or.inl ⟨won_done hw hdoneA, ?_, h3⟩
    rcases h2 with h2 | h2
    · rw [h2] at hdoneB; cases hdoneB
    · exact lost_done h2 hdoneB
  · refine Or.inr ⟨?_, won_done hw hdoneB, h3⟩
    rcases h1 with h1 | h1
    · rw [h1] at hdoneA; cases hdoneA
    · exact lost_done h1 hdoneA

theorem atomic_allocation_witness :
    Race.run sampleConfig
        ⟨Store.empty, .start 0 sampleBody sampleCreateEnv, .start 0 rivalBody sampleCreateEnv⟩
        sampleSchedule = some sampleRaceEnd ∧
      ((Reply.json 201 (.created "http://localhost:3001/abc" ⟨61000⟩)).status = some 201 ∧
          (Reply.json 409 (.error "Shortcode already exists")).status = some 409 ∧
          sampleRaceEnd.store =
            Store.empty.withRecord (.str "abc")
              (buildUrlData sampleBody sampleCreateEnv (.str "abc")) ∨
        (Reply.json 201 (.created "http://localhost:3001/abc" ⟨61000⟩)).status = some 409 ∧
          (Reply.json 409 (.error "Shortcode already exists")).status = some 201 ∧
          sampleRaceEnd.store =
            Store.empty.withRecord (.str "abc")
              (buildUrlData rivalBody sampleCreateEnv (.str "abc"))) :=
  ⟨rfl,
    atomic_allocation sampleConfig Store.empty (.str "abc") 0 0 sampleBody rivalBody
      sampleCreateEnv sampleCreateEnv sampleSchedule sampleRaceEnd _ _ (by decide) rfl rfl
      (by decide) ⟨⟨by decide, by decide⟩, Or.inr ⟨1, by decide, rfl⟩, ⟨61000⟩, by decide⟩
      ⟨⟨by decide, by decide⟩, Or.inr ⟨2, by decide, rfl⟩, ⟨121000⟩, by decide⟩ rfl rfl rfl⟩

/-- Sample evaluations of `validateLogParams`: a backend package on the backend
stack is accepted; a capitalised stack, a backend package on the frontend stack
and a blank message are rejected. -/
theorem validateLogParams_examples :
    (validateLogParams (.str "backend") (.str "info") (.str "handler") (.str " up ")).toBool
        = true ∧
      (validateLogParams (.str "Backend") (.str "info") (.str "handler") (.str "up")).toBool
        = false ∧
      (validateLogParams (.str "frontend") (.str "info") (.str "handler") (.str "up")).toBool
        = false ∧
      (validateLogParams (.str "backend") (.str "info") (.str "auth") (.str " \t\n")).toBool
        = false := by
  refine ⟨?_, ?_, ?_, ?_⟩ <;> decide

end UrlShortener
